import Mathlib

/-!
Verification model of the kyverno dual-fidelity test-execution harness.

Go strings are modelled as `List Char` (`GoStr`); Go maps are modelled as
association lists built by insert-or-update in insertion order (extensionally
equal to the Go map for lookup; iteration order of a Go map is unspecified,
the model fixes it to first-insertion order).  Wall-clock durations are not
modelled (duration fields are carried as integers but never computed from
time).  Fallible Go functions returning `(T, error)` are modelled as
`Except GoStr T`.
-/

/-- A Go string, modelled as its list of characters. -/
abbrev GoStr := List Char

/-- Embed a Lean string literal as a `GoStr`. -/
def gs (s : String) : GoStr := s.data

/-- The character `U+007B` (left curly brace). -/
def lbrace : Char := Char.ofNat 123

/-- The character `U+007D` (right curly brace). -/
def rbrace : Char := Char.ofNat 125

/-- Does `p` occur as a leading segment of `s`?  Model of the prefix test
underlying `strings.Contains` / `strings.HasPrefix`. -/
def prefixB : GoStr → GoStr → Bool
  | [], _ => true
  | _ :: _, [] => false
  | p :: ps, c :: cs => p == c && prefixB ps cs

/-- Model of Go `strings.Contains s pat`: does `pat` occur as a contiguous
substring of `s`?  (`strings.Contains(s, "")` is `true`.) -/
def containsB (s pat : GoStr) : Bool :=
  if prefixB pat s then true
  else
    match s with
    | [] => false
    | _ :: rest => containsB rest pat

/-- Model of Go `strings.HasSuffix s suf`. -/
def hasSuffixB (s suf : GoStr) : Bool :=
  prefixB suf.reverse s.reverse

/-- Model of Go `strings.ToLower` (faithful on ASCII, which is the only
alphabet the repository feeds it). -/
def toLowerB (s : GoStr) : GoStr := s.map Char.toLower

/-- Model of Go `strings.EqualFold` (case-insensitive equality; faithful on
ASCII). -/
def goEqualFold (a b : GoStr) : Bool := toLowerB a == toLowerB b

/-- Model of Go `strings.ReplaceAll s pat rep`: replace every non-overlapping
occurrence of `pat` in `s`, scanning left to right.  The `pat = []` case
cannot arise at the call sites in this repository (patterns always contain
the surrounding braces); the model leaves `s` unchanged there. -/
def replaceAllFuel (pat rep : GoStr) : Nat → GoStr → GoStr
  | 0, s => s
  | _ + 1, [] => []
  | fuel + 1, c :: rest =>
    if pat ≠ [] && prefixB pat (c :: rest) then
      rep ++ replaceAllFuel pat rep fuel ((c :: rest).drop pat.length)
    else
      c :: replaceAllFuel pat rep fuel rest

/-- Model of Go `strings.ReplaceAll s pat rep` (see `replaceAllFuel`): each
step consumes at least one character of `s` when `pat` is nonempty, so a
fuel of `s.length` always suffices and the fuel-exhausted fallback is never
taken. -/
def replaceAll (pat rep s : GoStr) : GoStr :=
  replaceAllFuel pat rep s.length s

/-- Insert-or-update into an association list: the model of a write
`m[k] = v` into a Go map.  An existing binding of `k` is overwritten in
place; a new key is appended, so the list order is first-insertion order. -/
def upsert {α : Type} : List (GoStr × α) → GoStr → α → List (GoStr × α)
  | [], k, v => [(k, v)]
  | (k', v') :: rest, k, v =>
    if k' == k then (k', v) :: rest else (k', v') :: upsert rest k v

/-- Lookup in an association list: the model of a read `m[k]` from a Go map. -/
def lookupB {α : Type} : List (GoStr × α) → GoStr → Option α
  | [], _ => none
  | (k', v') :: rest, k => if k' == k then some v' else lookupB rest k

/-- Build the indexed copy of a mock table: the model of the
`for _, mock := range ... ` loops in `NewMockResolver` that populate the
`apiCalls` / `globalCtx` maps (later entries with the same key win). -/
def buildIndex {α : Type} (mocks : List (GoStr × α)) : List (GoStr × α) :=
  mocks.foldl (fun m kv => upsert m kv.1 kv.2) []

/-!  Kind → plural-resource-name inference (part_002 `inferResourceFromKind`)
and the fast backend's inline pluralization (envtest_context.go line 396). -/

/-- The guard of the first `switch` case of `inferResourceFromKind`:
ends in `y`, has more than one character, and does not end in
`ay` / `ey` / `oy`. -/
def iesBranchB (lower : GoStr) : Bool :=
  hasSuffixB lower (gs "y") && decide (1 < lower.length) &&
    !hasSuffixB lower (gs "ay") && !hasSuffixB lower (gs "ey") &&
    !hasSuffixB lower (gs "oy")

/-- The guard of the second `switch` case of `inferResourceFromKind`:
ends in `s` or `x`. -/
def esBranchB (lower : GoStr) : Bool :=
  hasSuffixB lower (gs "s") || hasSuffixB lower (gs "x")

/-- Model of `inferResourceFromKind` (part_002 lines 130-143): lower-case the
kind, then `y`→`ies` (guarded by length > 1 and not `ay`/`ey`/`oy`),
else `s`/`x`→ append `es`, else append `s`. -/
def inferResourceFromKind (kind : GoStr) : GoStr :=
  let lower := toLowerB kind
  if iesBranchB lower then lower.dropLast ++ gs "ies"
  else if esBranchB lower then lower ++ gs "es"
  else lower ++ gs "s"

/-- The plural resource name the fast backend computes for a seed object's
kind during `Setup` (envtest_context.go line 396:
`resource := strings.ToLower(gvk.Kind) + "s"`). -/
def fastSetupResourceName (kind : GoStr) : GoStr :=
  toLowerB kind ++ gs "s"

/-!  Mock resolver pattern matching (fake_enhanced.go `matchesPattern`).

The Go code builds a regex: `regexp.QuoteMeta(pattern)` escapes every
metacharacter, then each `\{\{[^}]+\}\}` occurrence (that is, each
`{{content}}` of the original pattern whose content is nonempty and
brace-free) is replaced by `[^/]+`, and the result is anchored with `^`/`$`
and tested against the URL.  Since `QuoteMeta` maps each source character to
itself or to a backslash-escaped pair, an occurrence of `\{\{` in the quoted
text corresponds exactly to two consecutive `{` characters of the source
pattern (an unescaped `{` never occurs, and a quoted pair never starts with
`{`), so the replacement recognises exactly: two `{`, a maximal nonempty run
of non-`}` characters, then `}}`.  The model tokenizes the pattern into
literal characters and placeholder tokens accordingly, and matches a
placeholder against one or more non-`/` characters, anchored at both ends,
exactly as the compiled regex does. -/

/-- One token of a compiled URL pattern: a literal character, or a
`{{...}}` placeholder (compiled to the wildcard `[^/]+`). -/
inductive Tok : Type
  | lit : Char → Tok
  | ph : Tok
deriving DecidableEq

/-- Tokenize an API-call URL pattern: each `{{content}}` with nonempty
brace-free content becomes a placeholder token, every other character is a
literal.  Faithful to `regexp.QuoteMeta` + the `\{\{[^}]+\}\}` → `[^/]+`
rewrite of `matchesPattern` (see the section comment above). -/
def tokenizePatternFuel : Nat → GoStr → List Tok
  | 0, s => s.map Tok.lit
  | _ + 1, [] => []
  | _ + 1, [c] => [Tok.lit c]
  | fuel + 1, c1 :: c2 :: rest =>
    if c1 == lbrace && c2 == lbrace then
      let content := rest.takeWhile (fun c => c != rbrace)
      match rest.dropWhile (fun c => c != rbrace) with
      | r1 :: r2 :: rest2 =>
        if content ≠ [] && r1 == rbrace && r2 == rbrace then
          Tok.ph :: tokenizePatternFuel fuel rest2
        else
          Tok.lit c1 :: tokenizePatternFuel fuel (c2 :: rest)
      | _ => Tok.lit c1 :: tokenizePatternFuel fuel (c2 :: rest)
    else
      Tok.lit c1 :: tokenizePatternFuel fuel (c2 :: rest)

/-- Tokenize an API-call URL pattern (see `tokenizePatternFuel`): each step
consumes at least one character, so a fuel of `s.length` always suffices and
the fuel-exhausted fallback is never taken. -/
def tokenizePattern (s : GoStr) : List Tok :=
  tokenizePatternFuel s.length s

/-- Match a token list against a URL, placeholder = one or more non-`/`
characters, anchored at both ends: the semantics of the regex
`matchesPattern` compiles. -/
def matchToks : List Tok → GoStr → Bool
  | [], [] => true
  | [], _ :: _ => false
  | Tok.lit _ :: _, [] => false
  | Tok.lit c :: ts, d :: ds => c == d && matchToks ts ds
  | Tok.ph :: _, [] => false
  | Tok.ph :: ts, d :: ds =>
    !(d == '/') && (matchToks ts ds || matchToks (Tok.ph :: ts) ds)

/-- Declarative matching semantics for a compiled pattern: literals match
themselves, a placeholder matches a nonempty chunk of non-`/` characters. -/
inductive TokMatch : List Tok → GoStr → Prop
  | nil : TokMatch [] []
  | lit {c : Char} {ts : List Tok} {s : GoStr} :
      TokMatch ts s → TokMatch (Tok.lit c :: ts) (c :: s)
  | ph {ts : List Tok} {s : GoStr} (chunk tail : GoStr) :
      s = chunk ++ tail → chunk ≠ [] → (∀ c ∈ chunk, c ≠ '/') →
      TokMatch ts tail → TokMatch (Tok.ph :: ts) s

/-- Model of `MockResolver.matchesPattern` (fake_enhanced.go lines 328-337). -/
def matchesPattern (pattern url : GoStr) : Bool :=
  matchToks (tokenizePattern pattern) url

/-- Model of `MockResolver.substituteVariables` (fake_enhanced.go lines
318-325): replace every `{{key}}` occurrence by the variable's value.  The
Go code ranges over a map; the model ranges over the variable list in
order. -/
def substituteVariables (template : GoStr) (vars : List (GoStr × GoStr)) : GoStr :=
  vars.foldl
    (fun acc kv => replaceAll (lbrace :: lbrace :: kv.1 ++ [rbrace, rbrace]) kv.2 acc)
    template

/-- Model of `MockResolver.ResolveAPICall` (fake_enhanced.go lines 276-293):
substitute variables, try an exact lookup, then scan the indexed mocks for
the first pattern match, else fail with a not-found error naming the
resolved path.  The Go pattern scan ranges over a map (unspecified order);
this determinized instance scans in first-insertion order and is used where
the order is immaterial (at most one pattern can match);
`resolveAPICallOrdered` below exposes the order. -/
def resolveAPICall {α : Type} (apiCalls : List (GoStr × α))
    (urlPath : GoStr) (vars : List (GoStr × GoStr)) : Except GoStr α :=
  let resolvedPath := substituteVariables urlPath vars
  match lookupB apiCalls resolvedPath with
  | some response => Except.ok response
  | none =>
    match apiCalls.find? (fun pv => matchesPattern pv.1 resolvedPath) with
    | some pv => Except.ok pv.2
    | none => Except.error (gs "no mock found for API call: " ++ resolvedPath)

/-- Model of `MockResolver.ResolveAPICall` with the pattern-scan iteration
order made explicit: the Go fallback loop is
`for pattern, response := range r.apiCalls`, a map range whose order is
unspecified, so every execution visits the indexed entries in some
permutation `order` of the map's entries.  The exact lookup is a map index
operation and does not depend on the order. -/
def resolveAPICallOrdered {α : Type} (apiCalls order : List (GoStr × α))
    (urlPath : GoStr) (vars : List (GoStr × GoStr)) : Except GoStr α :=
  let resolvedPath := substituteVariables urlPath vars
  match lookupB apiCalls resolvedPath with
  | some response => Except.ok response
  | none =>
    match order.find? (fun pv => matchesPattern pv.1 resolvedPath) with
    | some pv => Except.ok pv.2
    | none => Except.error (gs "no mock found for API call: " ++ resolvedPath)

/-- Model of `MockResolver.ResolveGlobalContext` (fake_enhanced.go lines
296-301): exact name lookup, else a not-found error naming the entry. -/
def resolveGlobalContext {α : Type} (globalCtx : List (GoStr × α))
    (name : GoStr) : Except GoStr α :=
  match lookupB globalCtx name with
  | some value => Except.ok value
  | none => Except.error (gs "no mock found for GlobalContextEntry: " ++ name)

/-- Model of `MockResolver.HasGlobalContext` (fake_enhanced.go lines 304-307). -/
def hasGlobalContext {α : Type} (globalCtx : List (GoStr × α)) (name : GoStr) : Bool :=
  (lookupB globalCtx name).isSome

/-!  Mock HTTP server (httpcall.go).  Request/response header maps follow Go
`net/http.Header` semantics: `Set`/`Get` canonicalize the key with
`textproto.CanonicalMIMEHeaderKey`, `Set` replaces any existing value. -/

/-- Is `c` a valid MIME header token character (Go
`textproto.validHeaderFieldByte`)?  Letters, digits, and
`! # $ % & ' * + - . ^ _ \x60 | ~`. -/
def isTokenChar (c : Char) : Bool :=
  c.isAlphanum ||
    [33, 35, 36, 37, 38, 39, 42, 43, 45, 46, 94, 95, 96, 124, 126].contains c.toNat

/-- The case-mapping pass of `textproto.CanonicalMIMEHeaderKey`: upper-case
the first character and every character following a `-`, lower-case the
rest. -/
def canonAux : Bool → GoStr → GoStr
  | _, [] => []
  | up, c :: rest =>
    (if up then c.toUpper else c.toLower) :: canonAux (c == '-') rest

/-- Model of `textproto.CanonicalMIMEHeaderKey`: keys containing an invalid
byte are returned unchanged, otherwise the canonical capitalization is
produced. -/
def canonicalMIMEHeaderKey (k : GoStr) : GoStr :=
  if k.all isTokenChar then canonAux true k else k

/-- Model of `http.Header.Set`: canonicalize the key, replace any existing
binding. -/
def headerSet (hs : List (GoStr × GoStr)) (k v : GoStr) : List (GoStr × GoStr) :=
  upsert hs (canonicalMIMEHeaderKey k) v

/-- Model of `http.Header.Get`: canonicalize the key, return the stored
value or the empty string. -/
def headerGet (hs : List (GoStr × GoStr)) (k : GoStr) : GoStr :=
  (lookupB hs (canonicalMIMEHeaderKey k)).getD []

/-- Additional request-matching criteria of an HTTP call mock (types.go
`RequestMatcher`). -/
structure GoRequestMatcher : Type where
  headers : List (GoStr × GoStr)
  bodyPattern : GoStr
deriving DecidableEq

/-- A configured HTTP response (types.go `HTTPResponse`). -/
structure GoHTTPResponse : Type where
  status : Int
  headers : List (GoStr × GoStr)
  body : GoStr
deriving DecidableEq

/-- One HTTP call mock (types.go `HTTPCallMock`). -/
structure GoHTTPCallMock : Type where
  url : GoStr
  method : GoStr
  requestMatcher : Option GoRequestMatcher
  response : GoHTTPResponse
deriving DecidableEq

/-- The observable data of an incoming HTTP request: method, full URL
string (`r.URL.String()`), path alone (`r.URL.Path`), headers (stored under
canonical keys, as `net/http` parses them), and raw body.  The body is plain
data in this pure model, so the read-then-restore of the Go matcher is the
identity. -/
structure GoHTTPRequest : Type where
  method : GoStr
  urlString : GoStr
  path : GoStr
  headers : List (GoStr × GoStr)
  body : GoStr
deriving DecidableEq

/-- The response the server writes: status code, explicitly set headers,
body. -/
structure EmittedResponse : Type where
  status : Int
  headers : List (GoStr × GoStr)
  body : GoStr
deriving DecidableEq

/-- Model of `HTTPMockServer.matches` (httpcall.go lines 61-101): method
equality (case-insensitive) when the mock specifies a method; URL
containment either way round, with the request path as fallback; then the
optional request-matcher's headers (all must equal) and body-pattern
(substring of the raw body). -/
def matchesMock (mock : GoHTTPCallMock) (r : GoHTTPRequest) : Bool :=
  if mock.method ≠ [] && !goEqualFold mock.method r.method then false
  else if !containsB r.urlString mock.url && !containsB mock.url r.urlString
      && !containsB r.path mock.url then false
  else
    match mock.requestMatcher with
    | none => true
    | some m =>
      if !(m.headers.all fun kv => headerGet r.headers kv.1 == kv.2) then false
      else if m.bodyPattern ≠ [] && !containsB r.body m.bodyPattern then false
      else true

/-- The header map produced by `Set`-ting each configured response header in
order onto an empty header map. -/
def applyHeaderSets (headers : List (GoStr × GoStr)) : List (GoStr × GoStr) :=
  headers.foldl (fun acc kv => headerSet acc kv.1 kv.2) []

/-- Model of the response-emission loop over `mock.Response.Headers`
(httpcall.go lines 33-35), followed by the Content-Type default, the status
default, and the body write. -/
def emitResponse (resp : GoHTTPResponse) : EmittedResponse :=
  let hs := applyHeaderSets resp.headers
  let hs :=
    if headerGet hs (gs "Content-Type") == [] then
      headerSet hs (gs "Content-Type") (gs "application/json")
    else hs
  { status := if resp.status = 0 then 200 else resp.status
    headers := hs
    body := resp.body }

/-- The fixed 404 response of `HTTPMockServer.handler` (httpcall.go lines
56-57). -/
def notFoundResponse : EmittedResponse :=
  { status := 404
    headers := []
    body := gs "\x7b\"error\": \"No mock found for request\"\x7d" }

/-- Model of `HTTPMockServer.handler` (httpcall.go lines 28-58): answer with
the response of the first mock, in registration order, that matches, else
404 with a fixed JSON error body. -/
def handler (mocks : List GoHTTPCallMock) (r : GoHTTPRequest) : EmittedResponse :=
  match mocks.find? (fun mock => matchesMock mock r) with
  | some mock => emitResponse mock.response
  | none => notFoundResponse

/-!  Test runner (part_001) and its collaborators.  The backends' effectful
construction/setup outcomes are abstracted into oracles: `Run` itself only
branches on whether those calls returned an error and on the error text,
which is exactly what the oracle supplies. -/

/-- One rule of a policy, at the granularity the runner consumes: its name,
the kinds its match block lists, and which of the four actionable rule
types it carries. -/
structure GoRule : Type where
  name : GoStr
  matchKinds : List GoStr
  hasValidate : Bool
  hasMutate : Bool
  hasGenerate : Bool
  hasVerifyImages : Bool
deriving DecidableEq

/-- A policy: name plus its spec's rule list. -/
structure GoPolicy : Type where
  name : GoStr
  rules : List GoRule
deriving DecidableEq

/-- A resource object, at the granularity the runner consumes. -/
structure GoResource : Type where
  kind : GoStr
  namespc : GoStr
  name : GoStr
deriving DecidableEq

/-- One evaluation outcome (part_001 `TestResult`).  `duration` is carried
but never computed in this model (wall-clock time is outside it). -/
structure TestResult : Type where
  policyName : GoStr
  ruleName : GoStr
  resourceName : GoStr
  resourceNamespace : GoStr
  resourceKind : GoStr
  status : GoStr
  message : GoStr
  mode : GoStr
  duration : Int
deriving DecidableEq

/-- Aggregate results of one run (part_001 `TestSummary`). -/
structure TestSummary : Type where
  mode : GoStr
  setupDuration : Int
  evalDuration : Int
  totalDuration : Int
  results : List TestResult
  pass : Nat
  fail : Nat
  warn : Nat
  error : Nat
  skip : Nat
  fellBack : Bool
  fallbackReason : GoStr
deriving DecidableEq

/-- The runner configuration fields `Run` consults (mode.go `TestConfig`). -/
structure TestConfig : Type where
  mode : GoStr
  policyPaths : List GoStr
  resourcePaths : List GoStr
  autoFallback : Bool
deriving DecidableEq

/-- Model of `TestConfig.Validate` (mode.go lines 101-112): `none` means
valid, `some e` the error text. -/
def validateConfig (c : TestConfig) : Option GoStr :=
  if c.mode ≠ gs "fast" && c.mode ≠ gs "accurate" then
    some (gs "invalid mode: " ++ c.mode)
  else if c.policyPaths.isEmpty then
    some (gs "at least one policy path is required")
  else if c.resourcePaths.isEmpty then
    some (gs "at least one resource path is required")
  else none

/-- Model of `policyMatchesResource` (part_001 lines 305-316): some rule's
match kinds contain the resource's kind. -/
def policyMatchesResource (pol : GoPolicy) (res : GoResource) : Bool :=
  pol.rules.any fun rule => rule.matchKinds.any fun kind => kind == res.kind

/-- Model of `evaluatePolicyRules` (part_001 lines 319-355): one result per
rule; validate / mutate / generate / verify-images (checked in that order)
give `pass` with a type-specific message, anything else gives `skip` with
"no actionable rule type". -/
def evaluatePolicyRules (pol : GoPolicy) (res : GoResource) (mode : GoStr) :
    List TestResult :=
  pol.rules.map fun rule =>
    let base : TestResult :=
      { policyName := pol.name
        ruleName := rule.name
        resourceName := res.name
        resourceNamespace := res.namespc
        resourceKind := res.kind
        status := []
        message := []
        mode := mode
        duration := 0 }
    if rule.hasValidate then
      { base with status := gs "pass"
                  message := gs "validation rule '" ++ rule.name ++
                    gs "' evaluated in " ++ mode ++ gs " mode" }
    else if rule.hasMutate then
      { base with status := gs "pass"
                  message := gs "mutation rule '" ++ rule.name ++
                    gs "' evaluated in " ++ mode ++ gs " mode" }
    else if rule.hasGenerate then
      { base with status := gs "pass"
                  message := gs "generation rule '" ++ rule.name ++
                    gs "' evaluated in " ++ mode ++ gs " mode" }
    else if rule.hasVerifyImages then
      { base with status := gs "pass"
                  message := gs "image verification rule '" ++ rule.name ++
                    gs "' evaluated in " ++ mode ++ gs " mode" }
    else
      { base with status := gs "skip", message := gs "no actionable rule type" }

/-- The skip result emitted for a policy whose match criteria do not cover
the resource (part_001 lines 271-283). -/
def policySkipResult (pol : GoPolicy) (res : GoResource) (mode : GoStr) :
    TestResult :=
  { policyName := pol.name
    ruleName := []
    resourceName := res.name
    resourceNamespace := res.namespc
    resourceKind := res.kind
    status := gs "skip"
    message := gs "policy does not match resource"
    mode := mode
    duration := 0 }

/-- Model of `TestRunner.evaluatePolicies` (part_001 lines 248-302), given
the active backend's mode: outer loop over resources, inner loop over
policies; a non-matching policy contributes its single skip result, a
matching one contributes its per-rule results. -/
def evaluatePolicies (mode : GoStr) (policies : List GoPolicy)
    (resources : List GoResource) : List TestResult :=
  resources.flatMap fun res =>
    policies.flatMap fun pol =>
      if !policyMatchesResource pol res then [policySkipResult pol res mode]
      else evaluatePolicyRules pol res mode

/-- Count results with the given status. -/
def countStatus (results : List TestResult) (status : GoStr) : Nat :=
  results.countP fun r => r.status == status

/-- One iteration of the aggregation loop of `TestRunner.Run` (part_001
lines 207-220): bump the counter named by the result's status; statuses
outside the five known ones are not counted. -/
def aggregateStep (acc : TestSummary) (r : TestResult) : TestSummary :=
  if r.status == gs "pass" then { acc with pass := acc.pass + 1 }
  else if r.status == gs "fail" then { acc with fail := acc.fail + 1 }
  else if r.status == gs "warn" then { acc with warn := acc.warn + 1 }
  else if r.status == gs "error" then { acc with error := acc.error + 1 }
  else if r.status == gs "skip" then { acc with skip := acc.skip + 1 }
  else acc

/-- Model of the aggregation loop of `TestRunner.Run` (part_001 lines
207-220). -/
def aggregate (s : TestSummary) (results : List TestResult) : TestSummary :=
  results.foldl aggregateStep s

/-- The observable behavior of one constructed backend: its reported mode,
the outcome of its (effectful) `Setup` call, and whether its `Client()` is
nil.  For the concrete backends of this repository the mode is `fast` or
`accurate` and the client is non-nil after a successful `Setup`. -/
structure BackendImpl : Type where
  mode : GoStr
  setupErr : Option GoStr
  clientNil : Bool
deriving DecidableEq

/-- The summary `Run` starts from (part_001 lines 139-141): the configured
mode, everything else zero. -/
def initSummary (cfg : TestConfig) : TestSummary :=
  { mode := cfg.mode
    setupDuration := 0
    evalDuration := 0
    totalDuration := 0
    results := []
    pass := 0
    fail := 0
    warn := 0
    error := 0
    skip := 0
    fellBack := false
    fallbackReason := [] }

/-- The evaluation + aggregation + teardown tail of `Run` (part_001 lines
194-232).  Teardown failure only prints a warning and does not affect the
returned summary, so it does not appear in the model. -/
def runEvalPhase (b : BackendImpl) (s : TestSummary) (policies : List GoPolicy)
    (resources : List GoResource) : Except GoStr TestSummary :=
  if b.clientNil then
    Except.error (gs "policy evaluation failed: backend client is nil")
  else
    let results := evaluatePolicies b.mode policies resources
    Except.ok (aggregate { s with results := results } results)

/-- The `backend.Setup` phase of `Run` (part_001 lines 172-189): on setup
failure with current mode `accurate` and auto-fallback enabled, record the
fallback (reason = the original error text), flip the summary's mode to
`fast`, and set up a fresh fast backend (`fastB`); a failure of that
fallback setup is fatal, as is any setup failure without fallback. -/
def runSetupPhase (cfg : TestConfig) (curMode : GoStr) (b fastB : BackendImpl)
    (s : TestSummary) (policies : List GoPolicy) (resources : List GoResource) :
    Except GoStr TestSummary :=
  match b.setupErr with
  | none => runEvalPhase b s policies resources
  | some e =>
    if curMode == gs "accurate" && cfg.autoFallback then
      match fastB.setupErr with
      | some e2 => Except.error (gs "fallback fast mode setup failed: " ++ e2)
      | none =>
        runEvalPhase fastB
          { s with fellBack := true, fallbackReason := e, mode := gs "fast" }
          policies resources
    else Except.error (gs "backend setup failed: " ++ e)

/-- Model of `TestRunner.Run` (part_001 lines 132-233), parameterized by the
outcome oracle `create` of `createBackend` for a given configured mode and
by the fresh fast backend `fastB` the setup-fallback path constructs.
Construction failure with configured mode `accurate` and auto-fallback
enabled records the fallback (reason = original error text), switches the
working mode to `fast` — without touching the summary's mode field — and
retries construction; a second failure is fatal, as is a construction
failure without fallback. -/
def runGo (create : GoStr → Except GoStr BackendImpl) (fastB : BackendImpl)
    (cfg : TestConfig) (policies : List GoPolicy) (resources : List GoResource) :
    Except GoStr TestSummary :=
  match validateConfig cfg with
  | some e => Except.error (gs "invalid config: " ++ e)
  | none =>
    let s := initSummary cfg
    match create cfg.mode with
    | Except.ok b => runSetupPhase cfg cfg.mode b fastB s policies resources
    | Except.error e =>
      if cfg.mode == gs "accurate" && cfg.autoFallback then
        match create (gs "fast") with
        | Except.error e2 =>
          Except.error (gs "both accurate and fast mode setup failed: " ++ e2)
        | Except.ok b =>
          runSetupPhase cfg (gs "fast") b fastB
            { s with fellBack := true, fallbackReason := e } policies resources
      else Except.error (gs "backend setup failed: " ++ e)

/-!  Result comparison (part_001 `CompareResults`). -/

/-- The value of the Go `float64` division computing the speedup factor,
with the IEEE-754 special cases made explicit: a nonzero value divided by
zero is a signed infinity, zero by zero is NaN, otherwise the (exact)
quotient.  Rounding of finite quotients is not modelled. -/
inductive SpeedRatio : Type
  | finite : ℚ → SpeedRatio
  | posInf : SpeedRatio
  | negInf : SpeedRatio
  | nan : SpeedRatio
deriving DecidableEq

/-- IEEE-754-style division of two integer durations (the model of
`float64(accurate.TotalDuration) / float64(fast.TotalDuration)`). -/
def fdiv (num den : Int) : SpeedRatio :=
  if den = 0 then
    if num = 0 then SpeedRatio.nan
    else if 0 < num then SpeedRatio.posInf
    else SpeedRatio.negInf
  else SpeedRatio.finite ((num : ℚ) / (den : ℚ))

/-- One recorded disagreement (part_001 `Divergence`). -/
structure Divergence : Type where
  key : GoStr
  fastStatus : GoStr
  accurateStatus : GoStr
  fastMessage : GoStr
  accurateMsg : GoStr
deriving DecidableEq

/-- Comparison outcome (part_001 `ComparisonReport`), without the two
back-pointers to the input summaries. -/
structure ComparisonReport : Type where
  matching : Nat
  divergent : Nat
  onlyInFast : Nat
  onlyInAccurate : Nat
  divergences : List Divergence
  speedupFactor : SpeedRatio
deriving DecidableEq

/-- The composite key `CompareResults` files each result under (part_001
lines 386, 392): `policyName/ruleName/resourceKind/resourceName`. -/
def buildKey (r : TestResult) : GoStr :=
  r.policyName ++ gs "/" ++ r.ruleName ++ gs "/" ++ r.resourceKind ++
    gs "/" ++ r.resourceName

/-- The lookup map `CompareResults` builds from a summary's result list
(part_001 lines 384-394); duplicates of a key keep the last result. -/
def buildResultMap (results : List TestResult) : List (GoStr × TestResult) :=
  results.foldl (fun m r => upsert m (buildKey r) r) []

/-- The empty report `CompareResults` starts from. -/
def initReport : ComparisonReport :=
  { matching := 0
    divergent := 0
    onlyInFast := 0
    onlyInAccurate := 0
    divergences := []
    speedupFactor := SpeedRatio.nan }

/-- The `Divergence` record `CompareResults` appends for a shared key with
unequal statuses (part_001 lines 403-409). -/
def mkDivergence (key : GoStr) (fastResult accurateResult : TestResult) :
    Divergence :=
  { key := key
    fastStatus := fastResult.status
    accurateStatus := accurateResult.status
    fastMessage := fastResult.message
    accurateMsg := accurateResult.message }

/-- The per-entry step of the first comparison loop of `CompareResults`
(part_001 lines 397-414). -/
def compareStep (accurateMap : List (GoStr × TestResult))
    (rep : ComparisonReport) (kv : GoStr × TestResult) : ComparisonReport :=
  match lookupB accurateMap kv.1 with
  | some ar =>
    if kv.2.status == ar.status then { rep with matching := rep.matching + 1 }
    else
      { rep with
          divergent := rep.divergent + 1
          divergences := rep.divergences ++ [mkDivergence kv.1 kv.2 ar] }
  | none => { rep with onlyInFast := rep.onlyInFast + 1 }

/-- The per-entry step of the second comparison loop of `CompareResults`
(part_001 lines 416-420): count accurate-side keys absent from the fast
map. -/
def onlyInAccurateStep (fastMap : List (GoStr × TestResult))
    (rep : ComparisonReport) (kv : GoStr × TestResult) : ComparisonReport :=
  match lookupB fastMap kv.1 with
  | some _ => rep
  | none => { rep with onlyInAccurate := rep.onlyInAccurate + 1 }

/-- Model of `CompareResults` (part_001 lines 377-425): key both result
lists, classify shared keys as matching/divergent, count one-sided keys,
and compute the speedup ratio `accurate.TotalDuration /
fast.TotalDuration`.  The Go loops range over maps (unspecified order); the
model iterates in first-insertion order, which fixes only the order of the
`divergences` list, not any count. -/
def CompareResults (fast accurate : TestSummary) : ComparisonReport :=
  let fastMap := buildResultMap fast.results
  let accurateMap := buildResultMap accurate.results
  let rep := fastMap.foldl (compareStep accurateMap) initReport
  let rep := accurateMap.foldl (onlyInAccurateStep fastMap) rep
  { rep with speedupFactor := fdiv accurate.totalDuration fast.totalDuration }

/-!  Concrete sample inputs used by the end-to-end example clauses of the
spec's testable properties. -/

/-- A validation rule matching kind `Pod`. -/
def samplePodRule : GoRule :=
  { name := gs "check-labels"
    matchKinds := [gs "Pod"]
    hasValidate := true
    hasMutate := false
    hasGenerate := false
    hasVerifyImages := false }

/-- One policy with a single validation rule matching kind `Pod`. -/
def samplePodPolicy : GoPolicy :=
  { name := gs "pod-policy", rules := [samplePodRule] }

/-- One policy with a single validation rule matching kind `Deployment`. -/
def sampleDeployPolicy : GoPolicy :=
  { name := gs "deploy-policy"
    rules := [{ samplePodRule with matchKinds := [gs "Deployment"] }] }

/-- A Pod resource. -/
def samplePod : GoResource :=
  { kind := gs "Pod", namespc := gs "default", name := gs "nginx" }

/-- Three policies, each with exactly one rule matching kind `Pod`. -/
def samplePolicies3 : List GoPolicy :=
  [{ name := gs "p1", rules := [samplePodRule] },
   { name := gs "p2", rules := [samplePodRule] },
   { name := gs "p3", rules := [samplePodRule] }]

/-- Three Pod resources, each matching every policy in `samplePolicies3`. -/
def sampleResources3 : List GoResource :=
  [{ kind := gs "Pod", namespc := gs "default", name := gs "a" },
   { kind := gs "Pod", namespc := gs "default", name := gs "b" },
   { kind := gs "Pod", namespc := gs "default", name := gs "c" }]

/-!  Correspondence lemmas between the executable Bool-level functions and
their declarative Prop-level meanings. -/

/-- `prefixB` decides the prefix relation. -/
theorem prefixB_iff (p s : GoStr) : prefixB p s = true ↔ p <+: s := by
  induction p generalizing s with
  | nil => simp [prefixB, List.nil_prefix]
  | cons a ps ih =>
    cases s with
    | nil => simp [prefixB]
    | cons c cs =>
      simp [prefixB, Bool.and_eq_true, beq_iff_eq, ih, List.cons_prefix_cons]

/-- `containsB` (the model of `strings.Contains`) decides the substring
relation. -/
theorem containsB_iff (s pat : GoStr) : containsB s pat = true ↔ pat <:+: s := by
  induction s with
  | nil =>
    rw [containsB]
    cases pat with
    | nil => simp [prefixB, List.infix_nil]
    | cons a l => simp [prefixB, List.infix_nil]
  | cons c rest ih =>
    rw [containsB]
    by_cases h : prefixB pat (c :: rest) = true
    · simp only [h, if_true, true_iff, List.infix_cons_iff]
      exact Or.inl ((prefixB_iff _ _).mp h)
    · simp only [h, if_false, List.infix_cons_iff, ih, Bool.false_eq_true]
      constructor
      · exact Or.inr
      · rintro (hp | hi)
        · exact absurd ((prefixB_iff _ _).mpr hp) h
        · exact hi

/-- `hasSuffixB` (the model of `strings.HasSuffix`) decides the suffix
relation. -/
theorem hasSuffixB_iff (s suf : GoStr) : hasSuffixB s suf = true ↔ suf <:+ s := by
  rw [hasSuffixB, prefixB_iff, List.reverse_prefix]

/-- A string with a nonempty suffix is nonempty. -/
theorem ne_nil_of_hasSuffixB {s suf : GoStr} (hsuf : suf ≠ [])
    (h : hasSuffixB s suf = true) : s ≠ [] := by
  rcases (hasSuffixB_iff s suf).mp h with ⟨t, ht⟩
  intro hs
  rw [hs] at ht
  rcases List.append_eq_nil.mp ht with ⟨-, h2⟩
  exact hsuf h2

/-- The executable matcher `matchToks` decides the declarative matching
semantics `TokMatch`: placeholders match exactly the nonempty chunks of
non-`/` characters. -/
theorem matchToks_iff (ts : List Tok) (s : GoStr) :
    matchToks ts s = true ↔ TokMatch ts s := by
  induction s generalizing ts with
  | nil =>
    cases ts with
    | nil =>
      simp only [matchToks, true_iff]
      exact TokMatch.nil
    | cons t ts' =>
      cases t with
      | lit c =>
        simp only [matchToks, Bool.false_eq_true, false_iff]
        intro h
        cases h
      | ph =>
        simp only [matchToks, Bool.false_eq_true, false_iff]
        intro h
        cases h with
        | ph chunk tail heq hne hsl htail =>
          exact hne (List.append_eq_nil.mp heq.symm).1
  | cons d ds ih =>
    cases ts with
    | nil =>
      simp only [matchToks, Bool.false_eq_true, false_iff]
      intro h
      cases h
    | cons t ts' =>
      cases t with
      | lit c =>
        simp only [matchToks, Bool.and_eq_true, beq_iff_eq, ih]
        constructor
        · rintro ⟨rfl, hm⟩
          exact TokMatch.lit hm
        · intro h
          cases h with
          | lit hm => exact ⟨rfl, hm⟩
      | ph =>
        simp only [matchToks, Bool.and_eq_true, Bool.or_eq_true, Bool.not_eq_true',
          beq_eq_false_iff_ne, ih]
        constructor
        · rintro ⟨hd, hm | hm⟩
          · exact TokMatch.ph [d] ds rfl (by simp) (by simpa using hd) hm
          · cases hm with
            | ph chunk tail heq hne hsl htail =>
              refine TokMatch.ph (d :: chunk) tail (by rw [heq]; rfl) (by simp) ?_ htail
              intro c hc
              rcases List.mem_cons.mp hc with rfl | hc
              · exact hd
              · exact hsl c hc
        · intro h
          cases h with
          | ph chunk tail heq hne hsl htail =>
            cases chunk with
            | nil => exact absurd rfl hne
            | cons c0 chunk' =>
              simp only [List.cons_append, List.cons.injEq] at heq
              rcases heq with ⟨rfl, heq⟩
              refine ⟨hsl _ (List.mem_cons_self _ _), ?_⟩
              cases chunk' with
              | nil =>
                simp only [List.nil_append] at heq
                exact Or.inl (heq ▸ htail)
              | cons c1 chunk'' =>
                refine Or.inr ?_
                exact TokMatch.ph (c1 :: chunk'') tail heq (by simp)
                  (fun c hc => hsl c (List.mem_cons_of_mem _ hc)) htail

/-- `matchesPattern` in terms of the declarative semantics. -/
theorem matchesPattern_iff (pattern url : GoStr) :
    matchesPattern pattern url = true ↔ TokMatch (tokenizePattern pattern) url := by
  rw [matchesPattern, matchToks_iff]

/-- `hasSuffixB` returning `false` refutes the suffix relation. -/
theorem hasSuffixB_eq_false_iff (s suf : GoStr) :
    hasSuffixB s suf = false ↔ ¬suf <:+ s := by
  rw [Bool.eq_false_iff, Ne, hasSuffixB_iff]

/-- C4 counterexample: the claim's conditions (ends in `y`, does not end in
`ay`/`ey`/`oy`) hold for the one-character kind `"y"`, yet the code keeps
the `y` and appends `s` — the `len(lower) > 1` guard of the source is
missing from the claim. -/
theorem c4_claim_counterexample :
    hasSuffixB (toLowerB (gs "y")) (gs "y") = true ∧
    hasSuffixB (toLowerB (gs "y")) (gs "ay") = false ∧
    hasSuffixB (toLowerB (gs "y")) (gs "ey") = false ∧
    hasSuffixB (toLowerB (gs "y")) (gs "oy") = false ∧
    inferResourceFromKind (gs "y") = gs "ys" ∧
    inferResourceFromKind (gs "y") ≠ (toLowerB (gs "y")).dropLast ++ gs "ies" := by
  decide

/-- C4 (amended): `inferResourceFromKind` lower-cases the kind and then: if
it ends in `y`, has **more than one character**, and does not end in `ay`,
`ey`, or `oy`, the trailing `y` is dropped and `ies` appended; else if it
ends in `s` or `x`, `es` is appended; else `s` is appended.  The branch
guards are characterized by the suffix relation, and the five example kinds
evaluate as the claim states. -/
theorem c4_infer_resource_pluralization (kind : GoStr) :
    (iesBranchB (toLowerB kind) = true ↔
      (gs "y") <:+ toLowerB kind ∧ 1 < (toLowerB kind).length ∧
      ¬(gs "ay") <:+ toLowerB kind ∧ ¬(gs "ey") <:+ toLowerB kind ∧
      ¬(gs "oy") <:+ toLowerB kind) ∧
    (esBranchB (toLowerB kind) = true ↔
      (gs "s") <:+ toLowerB kind ∨ (gs "x") <:+ toLowerB kind) ∧
    (iesBranchB (toLowerB kind) = true →
      inferResourceFromKind kind = (toLowerB kind).dropLast ++ gs "ies") ∧
    (iesBranchB (toLowerB kind) = false → esBranchB (toLowerB kind) = true →
      inferResourceFromKind kind = toLowerB kind ++ gs "es") ∧
    (iesBranchB (toLowerB kind) = false → esBranchB (toLowerB kind) = false →
      inferResourceFromKind kind = toLowerB kind ++ gs "s") ∧
    inferResourceFromKind (gs "Deployment") = gs "deployments" ∧
    inferResourceFromKind (gs "Policy") = gs "policies" ∧
    inferResourceFromKind (gs "Ingress") = gs "ingresses" ∧
    inferResourceFromKind (gs "NetworkPolicy") = gs "networkpolicies" ∧
    inferResourceFromKind (gs "Pod") = gs "pods" := by
  refine ⟨?_, ?_, ?_, ?_, ?_, by decide, by decide, by decide, by decide, by decide⟩
  · simp only [iesBranchB, Bool.and_eq_true, Bool.not_eq_true', hasSuffixB_iff,
      hasSuffixB_eq_false_iff, decide_eq_true_eq]
    tauto
  · simp only [esBranchB, Bool.or_eq_true, hasSuffixB_iff]
  · intro h
    simp [inferResourceFromKind, h]
  · intro h1 h2
    simp [inferResourceFromKind, h1, h2]
  · intro h1 h2
    simp [inferResourceFromKind, h1, h2]

/-- C4 witness: the conditional clauses of
`c4_infer_resource_pluralization` applied at the concrete kinds `Policy`
(first branch), `Ingress` (second branch) and `Pod` (default branch). -/
theorem c4_infer_resource_pluralization_witness :
    inferResourceFromKind (gs "Policy") =
      (toLowerB (gs "Policy")).dropLast ++ gs "ies" ∧
    inferResourceFromKind (gs "Ingress") = toLowerB (gs "Ingress") ++ gs "es" ∧
    inferResourceFromKind (gs "Pod") = toLowerB (gs "Pod") ++ gs "s" :=
  ⟨(c4_infer_resource_pluralization (gs "Policy")).2.2.1 (by decide),
   (c4_infer_resource_pluralization (gs "Ingress")).2.2.2.1 (by decide) (by decide),
   (c4_infer_resource_pluralization (gs "Pod")).2.2.2.2.1 (by decide) (by decide)⟩

/-- C5 counterexample: the fast backend registers kind `Policy` under
`policys` (plain lower-case + `s`, envtest_context.go line 396) while the
high-fidelity seeding path's `inferResourceFromKind` produces `policies` —
the two paths do not share the pluralization heuristic. -/
theorem c5_claim_counterexample :
    fastSetupResourceName (gs "Policy") = gs "policys" ∧
    inferResourceFromKind (gs "Policy") = gs "policies" ∧
    fastSetupResourceName (gs "Policy") ≠ inferResourceFromKind (gs "Policy") := by
  decide

/-- C5 (amended): during fast-backend `Setup` a seed object's kind is
registered under `strings.ToLower(kind) + "s"`, not under
`inferResourceFromKind(kind)`; the two agree exactly when the lower-cased
kind triggers neither the `y`→`ies` branch nor the `s`/`x`→`es` branch of
the inference heuristic. -/
theorem c5_fast_vs_infer_pluralization (kind : GoStr) :
    fastSetupResourceName kind = toLowerB kind ++ gs "s" ∧
    (fastSetupResourceName kind = inferResourceFromKind kind ↔
      iesBranchB (toLowerB kind) = false ∧ esBranchB (toLowerB kind) = false) := by
  have h3 : (gs "s").length = 1 := rfl
  have h4 : (gs "es").length = 2 := rfl
  have h5 : (gs "ies").length = 3 := rfl
  refine ⟨rfl, ?_⟩
  rcases hies : iesBranchB (toLowerB kind) with _ | _
  · rcases hes : esBranchB (toLowerB kind) with _ | _
    · simp [inferResourceFromKind, fastSetupResourceName, hies, hes]
    · simp only [inferResourceFromKind, fastSetupResourceName, hies, hes,
        Bool.false_eq_true, if_false, if_true, Bool.true_eq_false, and_false,
        iff_false]
      intro heq
      have hlen := congrArg List.length heq
      rw [List.length_append, List.length_append, h3, h4] at hlen
      omega
  · simp only [inferResourceFromKind, fastSetupResourceName, hies,
      Bool.true_eq_false, false_and, iff_false, if_true]
    have hy : hasSuffixB (toLowerB kind) (gs "y") = true := by
      have h := hies
      simp only [iesBranchB, Bool.and_eq_true] at h
      exact h.1.1.1.1
    have hne : toLowerB kind ≠ [] := ne_nil_of_hasSuffixB (by decide) hy
    have hpos : 0 < (toLowerB kind).length := List.length_pos.mpr hne
    intro heq
    have hlen := congrArg List.length heq
    rw [List.length_append, List.length_append, List.length_dropLast, h3, h5] at hlen
    omega

/-- `find?` returns the first element satisfying the predicate: helper for
the registration-order scan lemmas. -/
theorem find?_first {α : Type} (p : α → Bool) (pre : List α) (x : α)
    (post : List α) (hpre : ∀ a ∈ pre, p a = false) (hx : p x = true) :
    (pre ++ x :: post).find? p = some x := by
  induction pre with
  | nil => simp [List.find?_cons, hx]
  | cons a rest ih =>
    have ha := hpre a (List.mem_cons_self _ _)
    simp only [List.cons_append, List.find?_cons, ha]
    exact ih fun b hb => hpre b (List.mem_cons_of_mem _ hb)

/-- C1 counterexample: the pattern-fallback loop of `ResolveAPICall` is
`for pattern, response := range r.apiCalls`, a Go map range with
unspecified iteration order, so every permutation of the indexed entries is
an admissible execution.  Two registered patterns both match the resolved
path `/api/v1/namespaces/prod/pods`; the admissible iteration order that
visits the second-registered entry first returns its response `2`, not the
first-registered pattern's response `1` — so "returns the response of the
first registered pattern, in registration order" is not a property of the
program. -/
theorem c1_claim_counterexample :
    matchesPattern (gs "/api/v1/namespaces/\x7b\x7bns\x7d\x7d/pods")
      (gs "/api/v1/namespaces/prod/pods") = true ∧
    matchesPattern (gs "/api/\x7b\x7bv\x7d\x7d/namespaces/prod/pods")
      (gs "/api/v1/namespaces/prod/pods") = true ∧
    buildIndex
        [(gs "/api/v1/namespaces/\x7b\x7bns\x7d\x7d/pods", (1 : ℕ)),
         (gs "/api/\x7b\x7bv\x7d\x7d/namespaces/prod/pods", (2 : ℕ))] =
      [(gs "/api/v1/namespaces/\x7b\x7bns\x7d\x7d/pods", (1 : ℕ)),
       (gs "/api/\x7b\x7bv\x7d\x7d/namespaces/prod/pods", (2 : ℕ))] ∧
    lookupB
      (buildIndex
        [(gs "/api/v1/namespaces/\x7b\x7bns\x7d\x7d/pods", (1 : ℕ)),
         (gs "/api/\x7b\x7bv\x7d\x7d/namespaces/prod/pods", (2 : ℕ))])
      (gs "/api/v1/namespaces/prod/pods") = none ∧
    List.Perm
      [(gs "/api/\x7b\x7bv\x7d\x7d/namespaces/prod/pods", (2 : ℕ)),
       (gs "/api/v1/namespaces/\x7b\x7bns\x7d\x7d/pods", (1 : ℕ))]
      (buildIndex
        [(gs "/api/v1/namespaces/\x7b\x7bns\x7d\x7d/pods", (1 : ℕ)),
         (gs "/api/\x7b\x7bv\x7d\x7d/namespaces/prod/pods", (2 : ℕ))]) ∧
    resolveAPICallOrdered
      (buildIndex
        [(gs "/api/v1/namespaces/\x7b\x7bns\x7d\x7d/pods", (1 : ℕ)),
         (gs "/api/\x7b\x7bv\x7d\x7d/namespaces/prod/pods", (2 : ℕ))])
      [(gs "/api/\x7b\x7bv\x7d\x7d/namespaces/prod/pods", (2 : ℕ)),
       (gs "/api/v1/namespaces/\x7b\x7bns\x7d\x7d/pods", (1 : ℕ))]
      (gs "/api/v1/namespaces/prod/pods") [] = Except.ok 2 ∧
    (2 : ℕ) ≠ 1 :=
  ⟨by decide, by decide, by decide, by decide, by decide, rfl, by decide⟩

/-- C1 (amended): `ResolveAPICall` substitutes every `{{key}}` occurrence
of the URL path and answers an exact hit on the indexed patterns directly;
otherwise it scans the indexed patterns in *some* order (the Go map range
order, unspecified) and, for every admissible order: the returned response
belongs to a registered pattern whose compiled matcher — literals matched
verbatim, each `{{...}}` placeholder a wildcard for one or more non-slash
characters, anchored at both ends (`matchesPattern_iff`/`TokMatch`) —
accepts the resolved path; whenever some pattern matches, a response is
returned; and when exactly one registered pattern matches, its response is
returned regardless of the order.  In particular the pattern
`/api/v1/namespaces/{{namespace}}/configmaps` with `namespace = prod`
resolves to `/api/v1/namespaces/prod/configmaps`, which is answered by
pattern match even though it was never registered verbatim (the index is a
singleton there, so it is its own only admissible order). -/
theorem c1_resolve_api_call {α : Type} (apiCalls order : List (GoStr × α))
    (urlPath : GoStr) (vars : List (GoStr × GoStr))
    (hperm : order.Perm apiCalls) :
    (∀ v, lookupB apiCalls (substituteVariables urlPath vars) = some v →
      resolveAPICallOrdered apiCalls order urlPath vars = Except.ok v) ∧
    (lookupB apiCalls (substituteVariables urlPath vars) = none →
      ∀ v, resolveAPICallOrdered apiCalls order urlPath vars = Except.ok v →
        ∃ p, (p, v) ∈ apiCalls ∧
          matchesPattern p (substituteVariables urlPath vars) = true) ∧
    (lookupB apiCalls (substituteVariables urlPath vars) = none →
      ∀ p v, (p, v) ∈ apiCalls →
        matchesPattern p (substituteVariables urlPath vars) = true →
        ∃ w, resolveAPICallOrdered apiCalls order urlPath vars = Except.ok w) ∧
    (lookupB apiCalls (substituteVariables urlPath vars) = none →
      ∀ p v, (p, v) ∈ apiCalls →
        matchesPattern p (substituteVariables urlPath vars) = true →
        (∀ qw ∈ apiCalls,
          matchesPattern qw.1 (substituteVariables urlPath vars) = true →
          qw = (p, v)) →
        resolveAPICallOrdered apiCalls order urlPath vars = Except.ok v) ∧
    (∀ pat url, matchesPattern pat url = true ↔ TokMatch (tokenizePattern pat) url) ∧
    resolveAPICallOrdered
        (buildIndex [(gs "/api/v1/namespaces/\x7b\x7bnamespace\x7d\x7d/configmaps", (7 : ℕ))])
        (buildIndex [(gs "/api/v1/namespaces/\x7b\x7bnamespace\x7d\x7d/configmaps", (7 : ℕ))])
        (gs "/api/v1/namespaces/\x7b\x7bnamespace\x7d\x7d/configmaps")
        [(gs "namespace", gs "prod")] = Except.ok 7 ∧
    substituteVariables (gs "/api/v1/namespaces/\x7b\x7bnamespace\x7d\x7d/configmaps")
        [(gs "namespace", gs "prod")] = gs "/api/v1/namespaces/prod/configmaps" ∧
    lookupB (buildIndex [(gs "/api/v1/namespaces/\x7b\x7bnamespace\x7d\x7d/configmaps", (7 : ℕ))])
        (gs "/api/v1/namespaces/prod/configmaps") = none := by
  refine ⟨?_, ?_, ?_, ?_, matchesPattern_iff, rfl, by decide, by decide⟩
  · intro v hv
    rw [resolveAPICallOrdered]
    simp only [hv]
  · intro hnone v hok
    rw [resolveAPICallOrdered] at hok
    simp only [hnone] at hok
    cases hfind : order.find?
        (fun pv => matchesPattern pv.1 (substituteVariables urlPath vars)) with
    | none =>
      simp only [hfind] at hok
      cases hok
    | some pv =>
      simp only [hfind, Except.ok.injEq] at hok
      subst hok
      have hpred := List.find?_some hfind
      refine ⟨pv.1, ?_, hpred⟩
      have hmem : pv ∈ apiCalls :=
        hperm.mem_iff.mp (List.mem_of_find?_eq_some hfind)
      simpa using hmem
  · intro hnone p v hmem hmatch
    rw [resolveAPICallOrdered]
    simp only [hnone]
    cases hfind : order.find?
        (fun pv => matchesPattern pv.1 (substituteVariables urlPath vars)) with
    | some pv =>
      refine ⟨pv.2, ?_⟩
      simp only [hfind]
    | none =>
      exfalso
      rw [List.find?_eq_none] at hfind
      exact (hfind _ (hperm.mem_iff.mpr hmem)) hmatch
  · intro hnone p v hmem hmatch huniq
    rw [resolveAPICallOrdered]
    simp only [hnone]
    cases hfind : order.find?
        (fun pv => matchesPattern pv.1 (substituteVariables urlPath vars)) with
    | none =>
      exfalso
      rw [List.find?_eq_none] at hfind
      exact (hfind _ (hperm.mem_iff.mpr hmem)) hmatch
    | some pv =>
      have hpred := List.find?_some hfind
      have hpv : pv = (p, v) :=
        huniq pv (hperm.mem_iff.mp (List.mem_of_find?_eq_some hfind)) hpred
      simp only [hfind, hpv]

/-- C1 witness: `c1_resolve_api_call` applied at concrete configurations —
an exact hit on a singleton index, and a unique pattern hit on a two-entry
index scanned in the order opposite to registration. -/
theorem c1_resolve_api_call_witness :
    resolveAPICallOrdered [(gs "/api/v1/pods", (3 : ℕ))]
      [(gs "/api/v1/pods", (3 : ℕ))] (gs "/api/v1/pods") [] = Except.ok 3 ∧
    resolveAPICallOrdered
      [(gs "/apis/apps/v1/deployments", (1 : ℕ)),
       (gs "/api/v1/namespaces/\x7b\x7bns\x7d\x7d/pods", (2 : ℕ))]
      [(gs "/api/v1/namespaces/\x7b\x7bns\x7d\x7d/pods", (2 : ℕ)),
       (gs "/apis/apps/v1/deployments", (1 : ℕ))]
      (gs "/api/v1/namespaces/prod/pods") [] = Except.ok 2 :=
  ⟨(c1_resolve_api_call [(gs "/api/v1/pods", (3 : ℕ))]
      [(gs "/api/v1/pods", (3 : ℕ))] (gs "/api/v1/pods") []
      (List.Perm.refl _)).1 3 (by decide),
   (c1_resolve_api_call
      [(gs "/apis/apps/v1/deployments", (1 : ℕ)),
       (gs "/api/v1/namespaces/\x7b\x7bns\x7d\x7d/pods", (2 : ℕ))]
      [(gs "/api/v1/namespaces/\x7b\x7bns\x7d\x7d/pods", (2 : ℕ)),
       (gs "/apis/apps/v1/deployments", (1 : ℕ))]
      (gs "/api/v1/namespaces/prod/pods") [] (by decide)).2.2.2.1 (by decide)
      (gs "/api/v1/namespaces/\x7b\x7bns\x7d\x7d/pods") 2 (by decide) (by decide)
      (by decide)⟩

/-- C9: `ResolveGlobalContext` succeeds exactly on an exact indexed-name hit
(no pattern support), and both it and `ResolveAPICall` fail with their typed
not-found error — never a silent default — whenever nothing matches,
including on the empty configuration. -/
theorem c9_exact_lookup_and_not_found {α : Type} (globalCtx : List (GoStr × α))
    (name : GoStr) :
    (∀ v, resolveGlobalContext globalCtx name = Except.ok v ↔
      lookupB globalCtx name = some v) ∧
    (lookupB globalCtx name = none →
      resolveGlobalContext globalCtx name =
        Except.error (gs "no mock found for GlobalContextEntry: " ++ name)) ∧
    resolveGlobalContext ([] : List (GoStr × α)) name =
      Except.error (gs "no mock found for GlobalContextEntry: " ++ name) ∧
    (∀ (apiCalls : List (GoStr × α)) (urlPath : GoStr) (vars : List (GoStr × GoStr)),
      lookupB apiCalls (substituteVariables urlPath vars) = none →
      (∀ pv ∈ apiCalls,
        matchesPattern pv.1 (substituteVariables urlPath vars) = false) →
      resolveAPICall apiCalls urlPath vars =
        Except.error (gs "no mock found for API call: " ++
          substituteVariables urlPath vars)) ∧
    (∀ (urlPath : GoStr) (vars : List (GoStr × GoStr)),
      resolveAPICall ([] : List (GoStr × α)) urlPath vars =
        Except.error (gs "no mock found for API call: " ++
          substituteVariables urlPath vars)) := by
  refine ⟨?_, ?_, rfl, ?_, fun urlPath vars => rfl⟩
  · intro v
    rw [resolveGlobalContext]
    cases h : lookupB globalCtx name with
    | none => simp
    | some w => simp
  · intro h
    rw [resolveGlobalContext, h]
  · intro apiCalls urlPath vars hnone hall
    rw [resolveAPICall]
    simp only [hnone]
    have hfind :
        (apiCalls.find? fun pv => matchesPattern pv.1 (substituteVariables urlPath vars)) =
          none := by
      rw [List.find?_eq_none]
      intro x hx
      simp [hall x hx]
    simp only [hfind]

/-- C9 witness: `c9_exact_lookup_and_not_found` applied at a concrete
configuration — a present name, an absent name, and a non-matching API-call
configuration. -/
theorem c9_exact_lookup_and_not_found_witness :
    resolveGlobalContext [(gs "deployment-count", (5 : ℕ))] (gs "deployment-count") =
      Except.ok 5 ∧
    resolveGlobalContext [(gs "deployment-count", (5 : ℕ))] (gs "cluster-name") =
      Except.error (gs "no mock found for GlobalContextEntry: " ++ gs "cluster-name") ∧
    resolveAPICall [(gs "/api/v1/pods", (5 : ℕ))] (gs "/api/v1/nodes") [] =
      Except.error (gs "no mock found for API call: " ++
        substituteVariables (gs "/api/v1/nodes") []) :=
  ⟨((c9_exact_lookup_and_not_found [(gs "deployment-count", (5 : ℕ))]
      (gs "deployment-count")).1 5).mpr (by decide),
   (c9_exact_lookup_and_not_found [(gs "deployment-count", (5 : ℕ))]
      (gs "cluster-name")).2.1 (by decide),
   (c9_exact_lookup_and_not_found ([] : List (GoStr × ℕ)) (gs "x")).2.2.2.1
      [(gs "/api/v1/pods", (5 : ℕ))] (gs "/api/v1/nodes") [] (by decide) (by decide)⟩

/-- C3: per (policy, resource) pair, a policy with no rule matching the
resource's kind contributes exactly its one skip result with the fixed
message (and no rule-level results); a matching policy contributes exactly
one result per rule, `pass` with the type-specific message for
validate/mutate/generate/image-verify rules and `skip` with "no actionable
rule type" otherwise.  The three end-to-end examples: Pod-policy vs Pod
gives one `pass`; Deployment-policy vs Pod gives one `skip`; three
one-rule policies against three matching resources give nine results. -/
theorem c3_evaluate_policies (mode : GoStr) (pol : GoPolicy) (res : GoResource) :
    (policyMatchesResource pol res = false →
      evaluatePolicies mode [pol] [res] = [policySkipResult pol res mode]) ∧
    (policySkipResult pol res mode).status = gs "skip" ∧
    (policySkipResult pol res mode).message = gs "policy does not match resource" ∧
    (policySkipResult pol res mode).ruleName = [] ∧
    (policyMatchesResource pol res = true →
      evaluatePolicies mode [pol] [res] = evaluatePolicyRules pol res mode) ∧
    (evaluatePolicyRules pol res mode).length = pol.rules.length ∧
    ((evaluatePolicyRules pol res mode).map (fun r => r.status) =
      pol.rules.map fun rule =>
        if rule.hasValidate || rule.hasMutate || rule.hasGenerate ||
            rule.hasVerifyImages then gs "pass" else gs "skip") ∧
    ((evaluatePolicyRules pol res mode).map (fun r => r.message) =
      pol.rules.map fun rule =>
        if rule.hasValidate then
          gs "validation rule '" ++ rule.name ++ gs "' evaluated in " ++ mode ++ gs " mode"
        else if rule.hasMutate then
          gs "mutation rule '" ++ rule.name ++ gs "' evaluated in " ++ mode ++ gs " mode"
        else if rule.hasGenerate then
          gs "generation rule '" ++ rule.name ++ gs "' evaluated in " ++ mode ++ gs " mode"
        else if rule.hasVerifyImages then
          gs "image verification rule '" ++ rule.name ++ gs "' evaluated in " ++ mode ++ gs " mode"
        else gs "no actionable rule type") ∧
    ((evaluatePolicies (gs "fast") [samplePodPolicy] [samplePod]).map
      (fun r => r.status) = [gs "pass"]) ∧
    ((evaluatePolicies (gs "fast") [sampleDeployPolicy] [samplePod]).map
      (fun r => r.status) = [gs "skip"]) ∧
    (evaluatePolicies (gs "fast") samplePolicies3 sampleResources3).length = 9 := by
  refine ⟨?_, rfl, rfl, rfl, ?_, ?_, ?_, ?_, by decide, by decide, by decide⟩
  · intro h
    simp [evaluatePolicies, h]
  · intro h
    simp [evaluatePolicies, h]
  · simp [evaluatePolicyRules]
  · rw [evaluatePolicyRules, List.map_map]
    refine List.map_congr_left ?_
    intro rule _
    cases hv : rule.hasValidate <;> cases hm : rule.hasMutate <;>
      cases hg : rule.hasGenerate <;> cases hi : rule.hasVerifyImages <;>
      simp [hv, hm, hg, hi]
  · rw [evaluatePolicyRules, List.map_map]
    refine List.map_congr_left ?_
    intro rule _
    cases hv : rule.hasValidate <;> cases hm : rule.hasMutate <;>
      cases hg : rule.hasGenerate <;> cases hi : rule.hasVerifyImages <;>
      simp [hv, hm, hg, hi]

/-- C3 witness: the two conditional clauses of `c3_evaluate_policies`
applied at concrete pairs — a non-matching pair yields exactly the one skip
result, a matching pair yields the per-rule results. -/
theorem c3_evaluate_policies_witness :
    evaluatePolicies (gs "fast") [sampleDeployPolicy] [samplePod] =
      [policySkipResult sampleDeployPolicy samplePod (gs "fast")] ∧
    evaluatePolicies (gs "fast") [samplePodPolicy] [samplePod] =
      evaluatePolicyRules samplePodPolicy samplePod (gs "fast") :=
  ⟨(c3_evaluate_policies (gs "fast") sampleDeployPolicy samplePod).1 (by decide),
   (c3_evaluate_policies (gs "fast") samplePodPolicy samplePod).2.2.2.2.1 (by decide)⟩

/-- The aggregation loop adds exactly the status histogram of the traversed
results to the summary's counters and leaves every other field unchanged. -/
theorem aggregate_spec (rs : List TestResult) (s : TestSummary) :
    (aggregate s rs).pass = s.pass + countStatus rs (gs "pass") ∧
    (aggregate s rs).fail = s.fail + countStatus rs (gs "fail") ∧
    (aggregate s rs).warn = s.warn + countStatus rs (gs "warn") ∧
    (aggregate s rs).error = s.error + countStatus rs (gs "error") ∧
    (aggregate s rs).skip = s.skip + countStatus rs (gs "skip") ∧
    (aggregate s rs).results = s.results ∧
    (aggregate s rs).mode = s.mode ∧
    (aggregate s rs).fellBack = s.fellBack ∧
    (aggregate s rs).fallbackReason = s.fallbackReason := by
  induction rs generalizing s with
  | nil => simp [aggregate, countStatus]
  | cons r rest ih =>
    have hstep : aggregate s (r :: rest) = aggregate (aggregateStep s r) rest := rfl
    obtain ⟨h1, h2, h3, h4, h5, h6, h7, h8, h9⟩ := ih (aggregateStep s r)
    rw [hstep, h1, h2, h3, h4, h5, h6, h7, h8, h9]
    simp only [countStatus, List.countP_cons]
    by_cases hp : r.status = gs "pass"
    · simp +decide [aggregateStep, hp]
      omega
    · by_cases hf : r.status = gs "fail"
      · simp +decide [aggregateStep, hf]
        omega
      · by_cases hw : r.status = gs "warn"
        · simp +decide [aggregateStep, hw]
          omega
        · by_cases he : r.status = gs "error"
          · simp +decide [aggregateStep, he]
            omega
          · by_cases hs : r.status = gs "skip"
            · simp +decide [aggregateStep, hs]
              omega
            · simp only [aggregateStep, beq_eq_false_iff_ne, ne_eq,
                if_neg (by simpa using hp), if_neg (by simpa using hf),
                if_neg (by simpa using hw), if_neg (by simpa using he),
                if_neg (by simpa using hs)]
              simp [beq_iff_eq, hp, hf, hw, he, hs]

/-- A summary produced by the evaluation phase from a zero-count summary has
counts equal to the status histogram of its own results list. -/
theorem runEvalPhase_ok {b : BackendImpl} {s0 : TestSummary}
    {policies : List GoPolicy} {resources : List GoResource} {s : TestSummary}
    (h : runEvalPhase b s0 policies resources = Except.ok s)
    (hp : s0.pass = 0) (hf : s0.fail = 0) (hw : s0.warn = 0)
    (he : s0.error = 0) (hs : s0.skip = 0) :
    s.pass = countStatus s.results (gs "pass") ∧
    s.fail = countStatus s.results (gs "fail") ∧
    s.warn = countStatus s.results (gs "warn") ∧
    s.error = countStatus s.results (gs "error") ∧
    s.skip = countStatus s.results (gs "skip") := by
  rw [runEvalPhase] at h
  by_cases hc : b.clientNil = true
  · rw [if_pos hc] at h
    cases h
  · rw [if_neg hc] at h
    injection h with h
    subst h
    obtain ⟨h1, h2, h3, h4, h5, h6, -, -, -⟩ :=
      aggregate_spec (evaluatePolicies b.mode policies resources)
        { s0 with results := evaluatePolicies b.mode policies resources }
    rw [h1, h2, h3, h4, h5, h6]
    simp [hp, hf, hw, he, hs]

/-- A summary produced by the setup phase onward from a zero-count summary
has counts equal to the status histogram of its own results list. -/
theorem runSetupPhase_ok {cfg : TestConfig} {curMode : GoStr}
    {b fastB : BackendImpl} {s0 : TestSummary} {policies : List GoPolicy}
    {resources : List GoResource} {s : TestSummary}
    (h : runSetupPhase cfg curMode b fastB s0 policies resources = Except.ok s)
    (hp : s0.pass = 0) (hf : s0.fail = 0) (hw : s0.warn = 0)
    (he : s0.error = 0) (hs : s0.skip = 0) :
    s.pass = countStatus s.results (gs "pass") ∧
    s.fail = countStatus s.results (gs "fail") ∧
    s.warn = countStatus s.results (gs "warn") ∧
    s.error = countStatus s.results (gs "error") ∧
    s.skip = countStatus s.results (gs "skip") := by
  rw [runSetupPhase] at h
  split at h
  · exact runEvalPhase_ok h hp hf hw he hs
  · split at h
    · split at h
      · cases h
      · exact runEvalPhase_ok h hp hf hw he hs
    · cases h

/-- C8: whenever `Run` returns a summary, each of the five per-status counts
equals the number of results in the summary's own results list carrying that
status — the counts are derived solely from the produced results. -/
theorem c8_counts_are_results_histogram
    (create : GoStr → Except GoStr BackendImpl) (fastB : BackendImpl)
    (cfg : TestConfig) (policies : List GoPolicy) (resources : List GoResource)
    (s : TestSummary)
    (h : runGo create fastB cfg policies resources = Except.ok s) :
    s.pass = countStatus s.results (gs "pass") ∧
    s.fail = countStatus s.results (gs "fail") ∧
    s.warn = countStatus s.results (gs "warn") ∧
    s.error = countStatus s.results (gs "error") ∧
    s.skip = countStatus s.results (gs "skip") := by
  rw [runGo] at h
  split at h
  · cases h
  · split at h
    · exact runSetupPhase_ok h rfl rfl rfl rfl rfl
    · split at h
      · split at h
        · cases h
        · exact runSetupPhase_ok h rfl rfl rfl rfl rfl
      · cases h

/-- C8 witness: a concrete successful run — fast mode, one Pod policy, one
Pod resource — whose summary has one `pass` result, together with
`c8_counts_are_results_histogram` applied to that run. -/
theorem c8_counts_are_results_histogram_witness :
    (runGo (fun _ => Except.ok ⟨gs "fast", none, false⟩) ⟨gs "fast", none, false⟩
        ⟨gs "fast", [gs "p.yaml"], [gs "r.yaml"], true⟩
        [samplePodPolicy] [samplePod]).map (fun t => t.pass) = Except.ok 1 ∧
    (∀ t, runGo (fun _ => Except.ok ⟨gs "fast", none, false⟩) ⟨gs "fast", none, false⟩
        ⟨gs "fast", [gs "p.yaml"], [gs "r.yaml"], true⟩
        [samplePodPolicy] [samplePod] = Except.ok t →
      t.pass = countStatus t.results (gs "pass") ∧
      t.fail = countStatus t.results (gs "fail") ∧
      t.warn = countStatus t.results (gs "warn") ∧
      t.error = countStatus t.results (gs "error") ∧
      t.skip = countStatus t.results (gs "skip")) :=
  ⟨rfl,
   fun t h =>
    c8_counts_are_results_histogram (fun _ => Except.ok ⟨gs "fast", none, false⟩)
      ⟨gs "fast", none, false⟩ ⟨gs "fast", [gs "p.yaml"], [gs "r.yaml"], true⟩
      [samplePodPolicy] [samplePod] t h⟩

/-- A successful evaluation phase returns the evaluated results of the
active backend's mode and leaves the summary's mode / fallback fields as it
received them. -/
theorem runEvalPhase_ok_spec {b : BackendImpl} {s0 : TestSummary}
    {policies : List GoPolicy} {resources : List GoResource} {s : TestSummary}
    (h : runEvalPhase b s0 policies resources = Except.ok s) :
    s.results = evaluatePolicies b.mode policies resources ∧
    s.mode = s0.mode ∧ s.fellBack = s0.fellBack ∧
    s.fallbackReason = s0.fallbackReason := by
  rw [runEvalPhase] at h
  by_cases hc : b.clientNil = true
  · rw [if_pos hc] at h
    cases h
  · rw [if_neg hc] at h
    injection h with h
    subst h
    obtain ⟨-, -, -, -, -, h6, h7, h8, h9⟩ :=
      aggregate_spec (evaluatePolicies b.mode policies resources)
        { s0 with results := evaluatePolicies b.mode policies resources }
    exact ⟨h6, h7, h8, h9⟩

/-- When the working mode is already `fast`, a setup failure cannot fall
back: a successful setup phase ran the evaluation on the given backend and
preserved the summary's mode / fallback fields. -/
theorem runSetupPhase_fast_ok_spec {cfg : TestConfig} {b fastB : BackendImpl}
    {s0 : TestSummary} {policies : List GoPolicy} {resources : List GoResource}
    {s : TestSummary}
    (h : runSetupPhase cfg (gs "fast") b fastB s0 policies resources = Except.ok s) :
    s.results = evaluatePolicies b.mode policies resources ∧
    s.mode = s0.mode ∧ s.fellBack = s0.fellBack ∧
    s.fallbackReason = s0.fallbackReason := by
  rw [runSetupPhase] at h
  split at h
  · exact runEvalPhase_ok_spec h
  · have hcond : ¬((gs "fast" == gs "accurate" && cfg.autoFallback) = true) := by
      simp +decide
    rw [if_neg hcond] at h
    cases h

/-- Every result produced by `evaluatePolicies` carries the mode it was
invoked with. -/
theorem mem_evaluatePolicies_mode {m : GoStr} {policies : List GoPolicy}
    {resources : List GoResource} {r : TestResult}
    (h : r ∈ evaluatePolicies m policies resources) : r.mode = m := by
  rw [evaluatePolicies] at h
  rcases List.mem_flatMap.mp h with ⟨res, -, h2⟩
  rcases List.mem_flatMap.mp h2 with ⟨pol, -, h3⟩
  by_cases hm : policyMatchesResource pol res = true
  · rw [if_neg (by simp [hm])] at h3
    rw [evaluatePolicyRules] at h3
    rcases List.mem_map.mp h3 with ⟨rule, -, rfl⟩
    cases hv : rule.hasValidate <;> cases hmu : rule.hasMutate <;>
      cases hg : rule.hasGenerate <;> cases hi : rule.hasVerifyImages <;>
      simp [hv, hmu, hg, hi]
  · rw [if_pos (by simp [Bool.eq_false_iff.mpr hm])] at h3
    rcases List.mem_singleton.mp h3 with rfl
    rfl

/-- `Run` with a failed accurate construction and a successful fast retry
proceeds to the setup phase in working mode `fast` with the fallback
recorded (original error text as the reason) on an otherwise untouched
initial summary. -/
theorem runGo_construction_fallback {create : GoStr → Except GoStr BackendImpl}
    {fastB : BackendImpl} {cfg : TestConfig} {policies : List GoPolicy}
    {resources : List GoResource} {e : GoStr} {b : BackendImpl}
    (hvalid : validateConfig cfg = none) (hmode : cfg.mode = gs "accurate")
    (hauto : cfg.autoFallback = true)
    (hce : create (gs "accurate") = Except.error e)
    (hcf : create (gs "fast") = Except.ok b) :
    runGo create fastB cfg policies resources =
      runSetupPhase cfg (gs "fast") b fastB
        { initSummary cfg with fellBack := true, fallbackReason := e }
        policies resources := by
  rw [runGo, hvalid, hmode]
  simp only [hce, hcf, hauto]
  rfl

/-- C2: `Run`'s fallback policy.  With configured mode `accurate` and
auto-fallback on: a construction failure records FellBack with the original
error text as the reason, switches the working mode to `fast` and retries
construction (a failed retry is fatal with the combined message); a setup
failure of the constructed backend applies the same policy by setting up a
fresh plain fast backend (whose setup failure is fatal, with the original
setup error retained as the reason otherwise).  With auto-fallback off, or
configured mode `fast`, both failures are fatal with the original error
wrapped. -/
theorem c2_runner_fallback_policy (create : GoStr → Except GoStr BackendImpl)
    (fastB : BackendImpl) (cfg : TestConfig) (policies : List GoPolicy)
    (resources : List GoResource) (hvalid : validateConfig cfg = none) :
    (cfg.mode = gs "accurate" → cfg.autoFallback = true →
      ∀ e, create (gs "accurate") = Except.error e →
        (∀ e2, create (gs "fast") = Except.error e2 →
          runGo create fastB cfg policies resources =
            Except.error (gs "both accurate and fast mode setup failed: " ++ e2)) ∧
        (∀ b, create (gs "fast") = Except.ok b →
          runGo create fastB cfg policies resources =
            runSetupPhase cfg (gs "fast") b fastB
              { initSummary cfg with fellBack := true, fallbackReason := e }
              policies resources ∧
          ∀ s, runGo create fastB cfg policies resources = Except.ok s →
            s.fellBack = true ∧ s.fallbackReason = e)) ∧
    (cfg.mode = gs "accurate" → cfg.autoFallback = true →
      ∀ b, create (gs "accurate") = Except.ok b →
        ∀ e, b.setupErr = some e →
          (∀ e2, fastB.setupErr = some e2 →
            runGo create fastB cfg policies resources =
              Except.error (gs "fallback fast mode setup failed: " ++ e2)) ∧
          (fastB.setupErr = none →
            runGo create fastB cfg policies resources =
              runEvalPhase fastB
                { initSummary cfg with
                    fellBack := true
                    fallbackReason := e
                    mode := gs "fast" } policies resources ∧
            ∀ s, runGo create fastB cfg policies resources = Except.ok s →
              s.fellBack = true ∧ s.fallbackReason = e)) ∧
    (cfg.autoFallback = false →
      (∀ e, create cfg.mode = Except.error e →
        runGo create fastB cfg policies resources =
          Except.error (gs "backend setup failed: " ++ e)) ∧
      (∀ b, create cfg.mode = Except.ok b → ∀ e, b.setupErr = some e →
        runGo create fastB cfg policies resources =
          Except.error (gs "backend setup failed: " ++ e))) ∧
    (cfg.mode = gs "fast" →
      (∀ e, create cfg.mode = Except.error e →
        runGo create fastB cfg policies resources =
          Except.error (gs "backend setup failed: " ++ e)) ∧
      (∀ b, create cfg.mode = Except.ok b → ∀ e, b.setupErr = some e →
        runGo create fastB cfg policies resources =
          Except.error (gs "backend setup failed: " ++ e))) := by
  refine ⟨?_, ?_, ?_, ?_⟩
  · intro hmode hauto e hce
    constructor
    · intro e2 hcf
      rw [runGo, hvalid, hmode]
      simp only [hce, hcf, hauto]
      rfl
    · intro b hcf
      refine ⟨runGo_construction_fallback hvalid hmode hauto hce hcf, ?_⟩
      intro s hs
      rw [runGo_construction_fallback hvalid hmode hauto hce hcf] at hs
      obtain ⟨-, -, h3, h4⟩ := runSetupPhase_fast_ok_spec hs
      exact ⟨h3, h4⟩
  · intro hmode hauto b hcb e hbe
    constructor
    · intro e2 hfe
      rw [runGo, hvalid, hmode]
      simp only [hcb, runSetupPhase, hbe, hauto, hfe]
      rfl
    · intro hfe
      have hrun : runGo create fastB cfg policies resources =
          runEvalPhase fastB
            { initSummary cfg with
                fellBack := true
                fallbackReason := e
                mode := gs "fast" } policies resources := by
        rw [runGo, hvalid, hmode]
        simp only [hcb, runSetupPhase, hbe, hauto, hfe]
        rfl
      refine ⟨hrun, ?_⟩
      intro s hs
      rw [hrun] at hs
      obtain ⟨-, -, h3, h4⟩ := runEvalPhase_ok_spec hs
      exact ⟨h3, h4⟩
  · intro hauto
    constructor
    · intro e hce
      rw [runGo, hvalid]
      simp only [hce, hauto, Bool.and_false]
      rfl
    · intro b hcb e hbe
      rw [runGo, hvalid]
      simp only [hcb, runSetupPhase, hbe, hauto, Bool.and_false]
      rfl
  · intro hmode
    constructor
    · intro e hce
      rw [runGo, hvalid]
      rw [hmode] at hce ⊢
      simp only [hce]
      have hcond : ((gs "fast" == gs "accurate" && cfg.autoFallback)) = false := by
        simp +decide
      simp only [hcond]
      rfl
    · intro b hcb e hbe
      rw [runGo, hvalid]
      rw [hmode] at hcb ⊢
      simp only [hcb, runSetupPhase, hbe]
      have hcond : ((gs "fast" == gs "accurate" && cfg.autoFallback)) = false := by
        simp +decide
      simp only [hcond]
      rfl

/-- C2 witness: `c2_runner_fallback_policy` applied at concrete runs — a
construction failure with a successful fast retry, and a construction
failure whose retry also fails. -/
theorem c2_runner_fallback_policy_witness :
    runGo
        (fun m => if m == gs "accurate" then
          Except.error (gs "no envtest binaries") else
          Except.ok ⟨gs "fast", none, false⟩)
        ⟨gs "fast", none, false⟩
        ⟨gs "accurate", [gs "p.yaml"], [gs "r.yaml"], true⟩ [] [] =
      runSetupPhase ⟨gs "accurate", [gs "p.yaml"], [gs "r.yaml"], true⟩
        (gs "fast") ⟨gs "fast", none, false⟩ ⟨gs "fast", none, false⟩
        { initSummary ⟨gs "accurate", [gs "p.yaml"], [gs "r.yaml"], true⟩ with
            fellBack := true
            fallbackReason := gs "no envtest binaries" } [] [] ∧
    runGo (fun _ => Except.error (gs "boom")) ⟨gs "fast", none, false⟩
        ⟨gs "accurate", [gs "p.yaml"], [gs "r.yaml"], true⟩ [] [] =
      Except.error (gs "both accurate and fast mode setup failed: " ++ gs "boom") :=
  ⟨(((c2_runner_fallback_policy
        (fun m => if m == gs "accurate" then
          Except.error (gs "no envtest binaries") else
          Except.ok ⟨gs "fast", none, false⟩)
        ⟨gs "fast", none, false⟩
        ⟨gs "accurate", [gs "p.yaml"], [gs "r.yaml"], true⟩ [] [] rfl).1
      rfl rfl (gs "no envtest binaries") rfl).2 ⟨gs "fast", none, false⟩ rfl).1,
   ((c2_runner_fallback_policy (fun _ => Except.error (gs "boom"))
        ⟨gs "fast", none, false⟩
        ⟨gs "accurate", [gs "p.yaml"], [gs "r.yaml"], true⟩ [] [] rfl).1
      rfl rfl (gs "boom") rfl).1 (gs "boom") rfl⟩

/-- C10: when fallback is triggered by backend *construction* failure the
returned summary keeps the originally configured `accurate` mode even
though every result was evaluated on the fast backend; only the
*setup*-failure fallback path flips the summary's mode field to `fast`
(results again carrying the fast backend's mode). -/
theorem c10_summary_mode_on_fallback (create : GoStr → Except GoStr BackendImpl)
    (fastB : BackendImpl) (cfg : TestConfig) (policies : List GoPolicy)
    (resources : List GoResource) (hvalid : validateConfig cfg = none)
    (hmode : cfg.mode = gs "accurate") (hauto : cfg.autoFallback = true) :
    (∀ e b, create (gs "accurate") = Except.error e →
      create (gs "fast") = Except.ok b → b.mode = gs "fast" →
      ∀ s, runGo create fastB cfg policies resources = Except.ok s →
        s.mode = gs "accurate" ∧ s.fellBack = true ∧
        ∀ r ∈ s.results, r.mode = gs "fast") ∧
    (∀ b e, create (gs "accurate") = Except.ok b → b.setupErr = some e →
      fastB.setupErr = none → fastB.mode = gs "fast" →
      ∀ s, runGo create fastB cfg policies resources = Except.ok s →
        s.mode = gs "fast" ∧ s.fellBack = true ∧
        ∀ r ∈ s.results, r.mode = gs "fast") := by
  constructor
  · intro e b hce hcf hbm s hs
    rw [runGo_construction_fallback hvalid hmode hauto hce hcf] at hs
    obtain ⟨hres, hsm, hfb, -⟩ := runSetupPhase_fast_ok_spec hs
    refine ⟨?_, ?_, ?_⟩
    · rw [hsm]
      simp [initSummary, hmode]
    · rw [hfb]
    · intro r hr
      rw [hres] at hr
      rw [mem_evaluatePolicies_mode hr, hbm]
  · intro b e hcb hbe hfe hfm s hs
    have hrun : runGo create fastB cfg policies resources =
        runEvalPhase fastB
          { initSummary cfg with
              fellBack := true
              fallbackReason := e
              mode := gs "fast" } policies resources := by
      rw [runGo, hvalid, hmode]
      simp only [hcb, runSetupPhase, hbe, hauto, hfe]
      rfl
    rw [hrun] at hs
    obtain ⟨hres, hsm, hfb, -⟩ := runEvalPhase_ok_spec hs
    refine ⟨hsm, hfb, ?_⟩
    intro r hr
    rw [hres] at hr
    rw [mem_evaluatePolicies_mode hr, hfm]

/-- C10 witness: concrete construction-failure and setup-failure fallback
runs — the first summary reports mode `accurate`, the second mode `fast`,
both with the fallback flag set — together with
`c10_summary_mode_on_fallback` applied to them. -/
theorem c10_summary_mode_on_fallback_witness :
    (runGo
        (fun m => if m == gs "accurate" then
          Except.error (gs "no envtest binaries") else
          Except.ok ⟨gs "fast", none, false⟩)
        ⟨gs "fast", none, false⟩
        ⟨gs "accurate", [gs "p.yaml"], [gs "r.yaml"], true⟩
        [samplePodPolicy] [samplePod]).map
      (fun s => (s.mode, s.fellBack, s.results.map fun r => r.mode)) =
      Except.ok (gs "accurate", true, [gs "fast"]) ∧
    (∀ s, runGo
        (fun m => if m == gs "accurate" then
          Except.error (gs "no envtest binaries") else
          Except.ok ⟨gs "fast", none, false⟩)
        ⟨gs "fast", none, false⟩
        ⟨gs "accurate", [gs "p.yaml"], [gs "r.yaml"], true⟩
        [samplePodPolicy] [samplePod] = Except.ok s →
      s.mode = gs "accurate" ∧ s.fellBack = true ∧
      ∀ r ∈ s.results, r.mode = gs "fast") ∧
    (runGo
        (fun m => if m == gs "accurate" then
          Except.ok ⟨gs "accurate", some (gs "env start failed"), false⟩ else
          Except.ok ⟨gs "fast", none, false⟩)
        ⟨gs "fast", none, false⟩
        ⟨gs "accurate", [gs "p.yaml"], [gs "r.yaml"], true⟩
        [samplePodPolicy] [samplePod]).map
      (fun s => (s.mode, s.fellBack, s.fallbackReason)) =
      Except.ok (gs "fast", true, gs "env start failed") ∧
    (∀ s, runGo
        (fun m => if m == gs "accurate" then
          Except.ok ⟨gs "accurate", some (gs "env start failed"), false⟩ else
          Except.ok ⟨gs "fast", none, false⟩)
        ⟨gs "fast", none, false⟩
        ⟨gs "accurate", [gs "p.yaml"], [gs "r.yaml"], true⟩
        [samplePodPolicy] [samplePod] = Except.ok s →
      s.mode = gs "fast" ∧ s.fellBack = true ∧
      ∀ r ∈ s.results, r.mode = gs "fast") :=
  ⟨rfl,
   fun s h =>
    (c10_summary_mode_on_fallback
        (fun m => if m == gs "accurate" then
          Except.error (gs "no envtest binaries") else
          Except.ok ⟨gs "fast", none, false⟩)
        ⟨gs "fast", none, false⟩
        ⟨gs "accurate", [gs "p.yaml"], [gs "r.yaml"], true⟩
        [samplePodPolicy] [samplePod] rfl rfl rfl).1
      (gs "no envtest binaries") ⟨gs "fast", none, false⟩ rfl rfl rfl s h,
   rfl,
   fun s h =>
    (c10_summary_mode_on_fallback
        (fun m => if m == gs "accurate" then
          Except.ok ⟨gs "accurate", some (gs "env start failed"), false⟩ else
          Except.ok ⟨gs "fast", none, false⟩)
        ⟨gs "fast", none, false⟩
        ⟨gs "accurate", [gs "p.yaml"], [gs "r.yaml"], true⟩
        [samplePodPolicy] [samplePod] rfl rfl rfl).2
      ⟨gs "accurate", some (gs "env start failed"), false⟩ (gs "env start failed")
      rfl rfl rfl rfl s h⟩

/-- What the first comparison loop adds to a report: the matching /
divergent / only-in-fast counts of the traversed entries against the
accurate map, and one appended `Divergence` per shared key with unequal
statuses; the other fields are untouched. -/
theorem compareLoop_spec (am fm : List (GoStr × TestResult))
    (rep : ComparisonReport) :
    (fm.foldl (compareStep am) rep).matching = rep.matching +
      fm.countP (fun kv =>
        match lookupB am kv.1 with
        | some ar => kv.2.status == ar.status
        | none => false) ∧
    (fm.foldl (compareStep am) rep).divergent = rep.divergent +
      fm.countP (fun kv =>
        match lookupB am kv.1 with
        | some ar => !(kv.2.status == ar.status)
        | none => false) ∧
    (fm.foldl (compareStep am) rep).onlyInFast = rep.onlyInFast +
      fm.countP (fun kv => (lookupB am kv.1).isNone) ∧
    (fm.foldl (compareStep am) rep).onlyInAccurate = rep.onlyInAccurate ∧
    (fm.foldl (compareStep am) rep).speedupFactor = rep.speedupFactor ∧
    (fm.foldl (compareStep am) rep).divergences = rep.divergences ++
      fm.filterMap (fun kv =>
        match lookupB am kv.1 with
        | some ar =>
          if kv.2.status == ar.status then none
          else some (mkDivergence kv.1 kv.2 ar)
        | none => none) := by
  induction fm generalizing rep with
  | nil => simp
  | cons kv rest ih =>
    have hstep : (kv :: rest).foldl (compareStep am) rep =
        rest.foldl (compareStep am) (compareStep am rep kv) := rfl
    obtain ⟨h1, h2, h3, h4, h5, h6⟩ := ih (compareStep am rep kv)
    rw [hstep, h1, h2, h3, h4, h5, h6]
    simp only [List.countP_cons, List.filterMap_cons]
    cases hl : lookupB am kv.1 with
    | none =>
      simp [compareStep, hl]
      omega
    | some ar =>
      by_cases hst : (kv.2.status == ar.status) = true
      · simp [compareStep, hl, hst]
        omega
      · simp only [Bool.not_eq_true] at hst
        simp [compareStep, hl, hst]
        omega

/-- What the second comparison loop adds to a report: the count of
traversed entries whose key is absent from the fast map; everything else is
untouched. -/
theorem onlyLoop_spec (fm am : List (GoStr × TestResult))
    (rep : ComparisonReport) :
    (am.foldl (onlyInAccurateStep fm) rep).onlyInAccurate =
      rep.onlyInAccurate + am.countP (fun kv => (lookupB fm kv.1).isNone) ∧
    (am.foldl (onlyInAccurateStep fm) rep).matching = rep.matching ∧
    (am.foldl (onlyInAccurateStep fm) rep).divergent = rep.divergent ∧
    (am.foldl (onlyInAccurateStep fm) rep).onlyInFast = rep.onlyInFast ∧
    (am.foldl (onlyInAccurateStep fm) rep).divergences = rep.divergences ∧
    (am.foldl (onlyInAccurateStep fm) rep).speedupFactor = rep.speedupFactor := by
  induction am generalizing rep with
  | nil => simp
  | cons kv rest ih =>
    have hstep : (kv :: rest).foldl (onlyInAccurateStep fm) rep =
        rest.foldl (onlyInAccurateStep fm) (onlyInAccurateStep fm rep kv) := rfl
    obtain ⟨h1, h2, h3, h4, h5, h6⟩ := ih (onlyInAccurateStep fm rep kv)
    rw [hstep, h1, h2, h3, h4, h5, h6]
    simp only [List.countP_cons]
    cases hl : lookupB fm kv.1 with
    | none =>
      simp [onlyInAccurateStep, hl]
      omega
    | some ar => simp [onlyInAccurateStep, hl]

/-- The length of a `filterMap` is the count of inputs it keeps. -/
theorem length_filterMap_eq_countP {α β : Type} (f : α → Option β)
    (l : List α) :
    (l.filterMap f).length = l.countP (fun a => (f a).isSome) := by
  induction l with
  | nil => rfl
  | cons a rest ih =>
    cases hf : f a <;>
      simp [List.filterMap_cons, hf, List.countP_cons, ih]

/-- C7: `CompareResults` keys every result by the composite
`policyName/ruleName/resourceKind/resourceName` string; shared keys with
equal statuses are counted as matching, shared keys with unequal statuses
are counted as divergent with one appended `Divergence` carrying both
statuses and both messages; one-sided keys bump only the corresponding
only-in counter; the speedup factor is the IEEE-style quotient
`accurate.TotalDuration / fast.TotalDuration`, which for a zero fast
duration is NaN or a signed infinity rather than a fault. -/
theorem c7_compare_results (fast accurate : TestSummary) :
    (∀ r : TestResult, buildKey r =
      r.policyName ++ gs "/" ++ r.ruleName ++ gs "/" ++ r.resourceKind ++
        gs "/" ++ r.resourceName) ∧
    (CompareResults fast accurate).matching =
      (buildResultMap fast.results).countP (fun kv =>
        match lookupB (buildResultMap accurate.results) kv.1 with
        | some ar => kv.2.status == ar.status
        | none => false) ∧
    (CompareResults fast accurate).divergent =
      (buildResultMap fast.results).countP (fun kv =>
        match lookupB (buildResultMap accurate.results) kv.1 with
        | some ar => !(kv.2.status == ar.status)
        | none => false) ∧
    (CompareResults fast accurate).onlyInFast =
      (buildResultMap fast.results).countP (fun kv =>
        (lookupB (buildResultMap accurate.results) kv.1).isNone) ∧
    (CompareResults fast accurate).onlyInAccurate =
      (buildResultMap accurate.results).countP (fun kv =>
        (lookupB (buildResultMap fast.results) kv.1).isNone) ∧
    (CompareResults fast accurate).divergences =
      (buildResultMap fast.results).filterMap (fun kv =>
        match lookupB (buildResultMap accurate.results) kv.1 with
        | some ar =>
          if kv.2.status == ar.status then none
          else some (mkDivergence kv.1 kv.2 ar)
        | none => none) ∧
    (CompareResults fast accurate).divergences.length =
      (CompareResults fast accurate).divergent ∧
    (∀ d ∈ (CompareResults fast accurate).divergences,
      d.fastStatus ≠ d.accurateStatus) ∧
    (CompareResults fast accurate).speedupFactor =
      fdiv accurate.totalDuration fast.totalDuration ∧
    (fast.totalDuration = 0 →
      (CompareResults fast accurate).speedupFactor = SpeedRatio.nan ∨
      (CompareResults fast accurate).speedupFactor = SpeedRatio.posInf ∨
      (CompareResults fast accurate).speedupFactor = SpeedRatio.negInf) := by
  obtain ⟨l1m, l1d, l1of, l1oa, l1sp, l1dv⟩ :=
    compareLoop_spec (buildResultMap accurate.results)
      (buildResultMap fast.results) initReport
  obtain ⟨l2oa, l2m, l2d, l2of, l2dv, l2sp⟩ :=
    onlyLoop_spec (buildResultMap fast.results) (buildResultMap accurate.results)
      (List.foldl (compareStep (buildResultMap accurate.results)) initReport
        (buildResultMap fast.results))
  have hdv : (CompareResults fast accurate).divergences =
      (buildResultMap fast.results).filterMap (fun kv =>
        match lookupB (buildResultMap accurate.results) kv.1 with
        | some ar =>
          if kv.2.status == ar.status then none
          else some (mkDivergence kv.1 kv.2 ar)
        | none => none) := by
    show (List.foldl (onlyInAccurateStep (buildResultMap fast.results))
        (List.foldl (compareStep (buildResultMap accurate.results)) initReport
          (buildResultMap fast.results))
        (buildResultMap accurate.results)).divergences = _
    rw [l2dv, l1dv]
    simp [initReport]
  have hdvt : (CompareResults fast accurate).divergent =
      (buildResultMap fast.results).countP (fun kv =>
        match lookupB (buildResultMap accurate.results) kv.1 with
        | some ar => !(kv.2.status == ar.status)
        | none => false) := by
    show (List.foldl (onlyInAccurateStep (buildResultMap fast.results))
        (List.foldl (compareStep (buildResultMap accurate.results)) initReport
          (buildResultMap fast.results))
        (buildResultMap accurate.results)).divergent = _
    rw [l2d, l1d]
    simp [initReport]
  refine ⟨fun r => rfl, ?_, hdvt, ?_, ?_, hdv, ?_, ?_, rfl, ?_⟩
  · show (List.foldl (onlyInAccurateStep (buildResultMap fast.results))
        (List.foldl (compareStep (buildResultMap accurate.results)) initReport
          (buildResultMap fast.results))
        (buildResultMap accurate.results)).matching = _
    rw [l2m, l1m]
    simp [initReport]
  · show (List.foldl (onlyInAccurateStep (buildResultMap fast.results))
        (List.foldl (compareStep (buildResultMap accurate.results)) initReport
          (buildResultMap fast.results))
        (buildResultMap accurate.results)).onlyInFast = _
    rw [l2of, l1of]
    simp [initReport]
  · show (List.foldl (onlyInAccurateStep (buildResultMap fast.results))
        (List.foldl (compareStep (buildResultMap accurate.results)) initReport
          (buildResultMap fast.results))
        (buildResultMap accurate.results)).onlyInAccurate = _
    rw [l2oa, l1oa]
    simp [initReport]
  · rw [hdv, hdvt, length_filterMap_eq_countP]
    refine List.countP_congr ?_
    intro kv _
    cases hl : lookupB (buildResultMap accurate.results) kv.1 with
    | none => simp
    | some ar =>
      by_cases hst : (kv.2.status == ar.status) = true
      · simp [hst]
      · simp only [Bool.not_eq_true] at hst
        simp [hst]
  · intro d hd
    rw [hdv] at hd
    rcases List.mem_filterMap.mp hd with ⟨kv, -, hf⟩
    cases hl : lookupB (buildResultMap accurate.results) kv.1 with
    | none =>
      rw [hl] at hf
      cases hf
    | some ar =>
      rw [hl] at hf
      by_cases hst : (kv.2.status == ar.status) = true
      · simp [hst] at hf
      · simp [hst] at hf
        subst hf
        simp only [mkDivergence, ne_eq]
        intro hcontra
        exact hst (beq_iff_eq.mpr hcontra)
  · intro h0
    have hsp : (CompareResults fast accurate).speedupFactor =
        fdiv accurate.totalDuration fast.totalDuration := rfl
    rw [hsp, h0, fdiv]
    by_cases hz : accurate.totalDuration = 0
    · left
      simp [hz]
    · by_cases hpos : 0 < accurate.totalDuration
      · right
        left
        simp [hz, hpos]
      · right
        right
        simp [hz, hpos]

/-- C7 witness: `c7_compare_results` applied to two concrete one-result
summaries sharing one composite key with differing statuses, the fast one
with a zero total duration — the recorded divergence carries both statuses
and the speedup factor is non-finite. -/
theorem c7_compare_results_witness :
    (mkDivergence
        (buildKey ⟨gs "p", gs "r", gs "a", gs "ns", gs "Pod", gs "pass", gs "ok", gs "fast", 0⟩)
        ⟨gs "p", gs "r", gs "a", gs "ns", gs "Pod", gs "pass", gs "ok", gs "fast", 0⟩
        ⟨gs "p", gs "r", gs "a", gs "ns", gs "Pod", gs "fail", gs "bad", gs "accurate", 0⟩).fastStatus ≠
      (mkDivergence
        (buildKey ⟨gs "p", gs "r", gs "a", gs "ns", gs "Pod", gs "pass", gs "ok", gs "fast", 0⟩)
        ⟨gs "p", gs "r", gs "a", gs "ns", gs "Pod", gs "pass", gs "ok", gs "fast", 0⟩
        ⟨gs "p", gs "r", gs "a", gs "ns", gs "Pod", gs "fail", gs "bad", gs "accurate", 0⟩).accurateStatus ∧
    ((CompareResults
        ⟨gs "fast", 0, 0, 0, [⟨gs "p", gs "r", gs "a", gs "ns", gs "Pod", gs "pass", gs "ok", gs "fast", 0⟩], 1, 0, 0, 0, 0, false, []⟩
        ⟨gs "accurate", 0, 0, 10, [⟨gs "p", gs "r", gs "a", gs "ns", gs "Pod", gs "fail", gs "bad", gs "accurate", 0⟩], 0, 1, 0, 0, 0, false, []⟩).speedupFactor =
        SpeedRatio.nan ∨
      (CompareResults
        ⟨gs "fast", 0, 0, 0, [⟨gs "p", gs "r", gs "a", gs "ns", gs "Pod", gs "pass", gs "ok", gs "fast", 0⟩], 1, 0, 0, 0, 0, false, []⟩
        ⟨gs "accurate", 0, 0, 10, [⟨gs "p", gs "r", gs "a", gs "ns", gs "Pod", gs "fail", gs "bad", gs "accurate", 0⟩], 0, 1, 0, 0, 0, false, []⟩).speedupFactor =
        SpeedRatio.posInf ∨
      (CompareResults
        ⟨gs "fast", 0, 0, 0, [⟨gs "p", gs "r", gs "a", gs "ns", gs "Pod", gs "pass", gs "ok", gs "fast", 0⟩], 1, 0, 0, 0, 0, false, []⟩
        ⟨gs "accurate", 0, 0, 10, [⟨gs "p", gs "r", gs "a", gs "ns", gs "Pod", gs "fail", gs "bad", gs "accurate", 0⟩], 0, 1, 0, 0, 0, false, []⟩).speedupFactor =
        SpeedRatio.negInf) :=
  ⟨(c7_compare_results
      ⟨gs "fast", 0, 0, 0, [⟨gs "p", gs "r", gs "a", gs "ns", gs "Pod", gs "pass", gs "ok", gs "fast", 0⟩], 1, 0, 0, 0, 0, false, []⟩
      ⟨gs "accurate", 0, 0, 10, [⟨gs "p", gs "r", gs "a", gs "ns", gs "Pod", gs "fail", gs "bad", gs "accurate", 0⟩], 0, 1, 0, 0, 0, false, []⟩).2.2.2.2.2.2.2.1
    (mkDivergence
      (buildKey ⟨gs "p", gs "r", gs "a", gs "ns", gs "Pod", gs "pass", gs "ok", gs "fast", 0⟩)
      ⟨gs "p", gs "r", gs "a", gs "ns", gs "Pod", gs "pass", gs "ok", gs "fast", 0⟩
      ⟨gs "p", gs "r", gs "a", gs "ns", gs "Pod", gs "fail", gs "bad", gs "accurate", 0⟩)
    (by decide),
   (c7_compare_results
      ⟨gs "fast", 0, 0, 0, [⟨gs "p", gs "r", gs "a", gs "ns", gs "Pod", gs "pass", gs "ok", gs "fast", 0⟩], 1, 0, 0, 0, 0, false, []⟩
      ⟨gs "accurate", 0, 0, 10, [⟨gs "p", gs "r", gs "a", gs "ns", gs "Pod", gs "fail", gs "bad", gs "accurate", 0⟩], 0, 1, 0, 0, 0, false, []⟩).2.2.2.2.2.2.2.2.2
    rfl⟩

/-- Looking up the key just written by an insert-or-update returns the new
value (the model of `Header.Set` followed by `Header.Get`). -/
theorem lookupB_upsert_self {α : Type} (hs : List (GoStr × α)) (k : GoStr)
    (v : α) : lookupB (upsert hs k v) k = some v := by
  induction hs with
  | nil => simp [upsert, lookupB]
  | cons kv rest ih =>
    rcases kv with ⟨k', v'⟩
    by_cases h : (k' == k) = true
    · simp [upsert, lookupB, h]
    · simp only [upsert, lookupB, h, Bool.false_eq_true, if_false, ih]

/-- C6: the mock HTTP server answers with the response of the first mock in
registration order that matches; matching is characterized by:
case-insensitive method equality when a method is specified, the
three-way URL containment test, equality of every request-matcher header,
and the body-pattern substring test; with no matching mock the server
answers 404 with the fixed JSON error body; the emitted response applies
the mock's headers, defaults `Content-Type` to `application/json` when
unset, defaults the zero status to 200, and writes the body verbatim. -/
theorem c6_http_mock_server (mocks : List GoHTTPCallMock) (req : GoHTTPRequest) :
    (∀ (pre : List GoHTTPCallMock) (m : GoHTTPCallMock) (post : List GoHTTPCallMock),
      mocks = pre ++ m :: post →
      (∀ m2 ∈ pre, matchesMock m2 req = false) → matchesMock m req = true →
      handler mocks req = emitResponse m.response) ∧
    (∀ m : GoHTTPCallMock, matchesMock m req = true ↔
      ((m.method ≠ [] → toLowerB m.method = toLowerB req.method) ∧
       (m.url <:+: req.urlString ∨ req.urlString <:+: m.url ∨ m.url <:+: req.path) ∧
       ∀ rm, m.requestMatcher = some rm →
         (∀ kv ∈ rm.headers, headerGet req.headers kv.1 = kv.2) ∧
         (rm.bodyPattern ≠ [] → rm.bodyPattern <:+: req.body))) ∧
    ((∀ m ∈ mocks, matchesMock m req = false) →
      handler mocks req = notFoundResponse) ∧
    notFoundResponse.status = 404 ∧
    notFoundResponse.body = gs "\x7b\"error\": \"No mock found for request\"\x7d" ∧
    (∀ resp : GoHTTPResponse,
      (emitResponse resp).body = resp.body ∧
      (resp.status = 0 → (emitResponse resp).status = 200) ∧
      (resp.status ≠ 0 → (emitResponse resp).status = resp.status) ∧
      (headerGet (applyHeaderSets resp.headers) (gs "Content-Type") = [] →
        (emitResponse resp).headers =
          headerSet (applyHeaderSets resp.headers) (gs "Content-Type")
            (gs "application/json") ∧
        headerGet (emitResponse resp).headers (gs "Content-Type") =
          gs "application/json") ∧
      (headerGet (applyHeaderSets resp.headers) (gs "Content-Type") ≠ [] →
        (emitResponse resp).headers = applyHeaderSets resp.headers)) := by
  refine ⟨?_, ?_, ?_, rfl, rfl, ?_⟩
  · intro pre m post heq hpre hm
    rw [handler, heq,
      find?_first (fun mock => matchesMock mock req) pre m post hpre hm]
  · intro m
    rw [matchesMock]
    split_ifs with h1 h2
    · simp only [Bool.false_eq_true, false_iff]
      intro hRHS
      obtain ⟨ha, -, -⟩ := hRHS
      rw [Bool.and_eq_true] at h1
      obtain ⟨h1a, h1b⟩ := h1
      rw [Bool.not_eq_true', goEqualFold, beq_eq_false_iff_ne] at h1b
      exact h1b (ha (of_decide_eq_true h1a))
    · simp only [Bool.false_eq_true, false_iff]
      intro hRHS
      obtain ⟨-, hurl, -⟩ := hRHS
      simp only [Bool.and_eq_true, Bool.not_eq_true'] at h2
      rcases hurl with h | h | h
      · rw [← containsB_iff] at h
        rw [h2.1.1] at h
        cases h
      · rw [← containsB_iff] at h
        rw [h2.1.2] at h
        cases h
      · rw [← containsB_iff] at h
        rw [h2.2] at h
        cases h
    · have hmeth : m.method ≠ [] → toLowerB m.method = toLowerB req.method := by
        intro hne
        by_contra hne2
        apply h1
        rw [Bool.and_eq_true]
        refine ⟨decide_eq_true hne, ?_⟩
        rw [Bool.not_eq_true', goEqualFold, beq_eq_false_iff_ne]
        exact hne2
      have hurl : m.url <:+: req.urlString ∨ req.urlString <:+: m.url ∨
          m.url <:+: req.path := by
        by_contra hcon
        push_neg at hcon
        obtain ⟨hu1, hu2, hu3⟩ := hcon
        apply h2
        simp only [Bool.and_eq_true, Bool.not_eq_true']
        refine ⟨⟨?_, ?_⟩, ?_⟩
        · exact Bool.eq_false_iff.mpr fun hh => hu1 ((containsB_iff _ _).mp hh)
        · exact Bool.eq_false_iff.mpr fun hh => hu2 ((containsB_iff _ _).mp hh)
        · exact Bool.eq_false_iff.mpr fun hh => hu3 ((containsB_iff _ _).mp hh)
      cases hrm : m.requestMatcher with
      | none =>
        show true = true ↔ _
        constructor
        · intro _
          refine ⟨hmeth, hurl, ?_⟩
          intro rm hrm2
          cases hrm2
        · intro _
          rfl
      | some rm =>
        show (if (!rm.headers.all fun kv => headerGet req.headers kv.1 == kv.2) = true
            then false
            else if (decide (rm.bodyPattern ≠ []) &&
                !containsB req.body rm.bodyPattern) = true
            then false else true) = true ↔ _
        split_ifs with h3 h4
        · simp only [Bool.false_eq_true, false_iff]
          intro hRHS
          obtain ⟨-, -, hm3⟩ := hRHS
          obtain ⟨hh, -⟩ := hm3 rm rfl
          rw [Bool.not_eq_true'] at h3
          rw [List.all_eq_false] at h3
          obtain ⟨kv, hkv, hkvf⟩ := h3
          rw [Bool.not_eq_true, beq_eq_false_iff_ne] at hkvf
          exact hkvf (hh kv hkv)
        · simp only [Bool.false_eq_true, false_iff]
          intro hRHS
          obtain ⟨-, -, hm3⟩ := hRHS
          obtain ⟨-, hb⟩ := hm3 rm rfl
          rw [Bool.and_eq_true] at h4
          obtain ⟨h4a, h4b⟩ := h4
          rw [Bool.not_eq_true'] at h4b
          have := hb (of_decide_eq_true h4a)
          rw [← containsB_iff] at this
          rw [h4b] at this
          cases this
        · constructor
          · intro _
            refine ⟨hmeth, hurl, ?_⟩
            intro rm' hrm'
            injection hrm' with hrm'
            subst hrm'
            constructor
            · intro kv hkv
              have h3' : (rm.headers.all fun kv =>
                  headerGet req.headers kv.1 == kv.2) = true := by
                rcases hb : (rm.headers.all fun kv =>
                    headerGet req.headers kv.1 == kv.2) with _ | _
                · exact absurd (by rw [hb]; rfl) h3
                · rfl
              rw [List.all_eq_true] at h3'
              exact beq_iff_eq.mp (h3' kv hkv)
            · intro hbne
              by_contra hbody
              apply h4
              rw [Bool.and_eq_true]
              refine ⟨decide_eq_true hbne, ?_⟩
              rw [Bool.not_eq_true']
              exact Bool.eq_false_iff.mpr fun hh => hbody ((containsB_iff _ _).mp hh)
          · intro _
            rfl
  · intro hall
    rw [handler]
    have hfind : (mocks.find? fun mock => matchesMock mock req) = none := by
      rw [List.find?_eq_none]
      intro x hx
      simp [hall x hx]
    rw [hfind]
  · intro resp
    refine ⟨rfl, ?_, ?_, ?_, ?_⟩
    · intro hz
      simp [emitResponse, hz]
    · intro hz
      simp [emitResponse, hz]
    · intro hct
      have hh : (emitResponse resp).headers =
          headerSet (applyHeaderSets resp.headers) (gs "Content-Type")
            (gs "application/json") := by
        simp [emitResponse, hct]
      refine ⟨hh, ?_⟩
      rw [hh, headerGet, headerSet, lookupB_upsert_self]
      rfl
    · intro hct
      simp [emitResponse, hct]

/-- C6 witness: `c6_http_mock_server` applied at a concrete registered
`POST /validate` mock — a matching POST gets the mock's response (status
200, body verbatim), an unregistered path gets the fixed 404. -/
theorem c6_http_mock_server_witness :
    handler
        [⟨gs "/validate", gs "POST", none, ⟨200, [], gs "\x7b\"valid\": true\x7d"⟩⟩]
        ⟨gs "POST", gs "/validate", gs "/validate", [], gs ""⟩ =
      emitResponse ⟨200, [], gs "\x7b\"valid\": true\x7d"⟩ ∧
    handler
        [⟨gs "/validate", gs "POST", none, ⟨200, [], gs "\x7b\"valid\": true\x7d"⟩⟩]
        ⟨gs "GET", gs "/unknown", gs "/unknown", [], gs ""⟩ =
      notFoundResponse ∧
    (emitResponse ⟨0, [], gs "\x7b\"valid\": true\x7d"⟩).status = 200 :=
  ⟨(c6_http_mock_server
      [⟨gs "/validate", gs "POST", none, ⟨200, [], gs "\x7b\"valid\": true\x7d"⟩⟩]
      ⟨gs "POST", gs "/validate", gs "/validate", [], gs ""⟩).1
    [] ⟨gs "/validate", gs "POST", none, ⟨200, [], gs "\x7b\"valid\": true\x7d"⟩⟩ []
    rfl (by simp) (by decide),
   (c6_http_mock_server
      [⟨gs "/validate", gs "POST", none, ⟨200, [], gs "\x7b\"valid\": true\x7d"⟩⟩]
      ⟨gs "GET", gs "/unknown", gs "/unknown", [], gs ""⟩).2.2.1 (by decide),
   ((c6_http_mock_server
      [⟨gs "/validate", gs "POST", none, ⟨200, [], gs "\x7b\"valid\": true\x7d"⟩⟩]
      ⟨gs "GET", gs "/unknown", gs "/unknown", [], gs ""⟩).2.2.2.2.2
    ⟨0, [], gs "\x7b\"valid\": true\x7d"⟩).2.1 rfl⟩
